import Mathlib

/-!
# arris_exporter: the status-page parser and the exporter around it

A shallow embedding of `vendor/github.com/mdlayher/arris` (`parse.go`, `status.go`):
the tree walk that extracts row groups from a parsed HTML document and the
section decoders that turn row groups into a `Status`; and of `handler.go` and
`collector.go`, which dial a device and turn its `Status` into metrics.

Conventions of the embedding.

* A method on `*Status` becomes a function from the receiver's value before the
  call to the pair of its value after the call and the returned error, so that
  what a failing call has already stored stays visible.
* A returned `error` is `Option Fault`: `none` is Go's `nil`, `some (.err e)` a
  non-nil error, and `some (.runtimePanic m)` a run-time panic (an index out of
  range), which Go raises instead of returning.
* `int`, `int64` and `time.Duration` are 64 bits wide: values are `Int`, and every
  conversion or arithmetic step that Go performs in 64 bits goes through
  `wrapInt64`. `uint64` values are `Nat` below `2 ^ 64`.
* Go strings are taken to be valid UTF-8, so a string is its sequence of runes.
* `strings.Fields`, `strings.TrimSpace`, `strconv.ParseUint`, `net.SplitHostPort`
  and `net.JoinHostPort` are modelled in full; `strconv.ParseFloat`,
  `net.ParseMAC` and the float-to-int conversion are parameters (`Lib`), so every
  theorem holds for whatever these functions do.
* A metric sent on the channel of `Collect` is an element of the list `Collect`
  returns; the `float64` it carries is kept as the expression that computes it.
-/

namespace Arris

/-! ## Errors -/

/-- The error values the package returns. -/
inductive Error where
  /-- The result of `errors.New(msg)`. -/
  | text (msg : String)
  /-- The result of `fmt.Errorf(format, args...)`. -/
  | errorf (format : String) (args : List String)
  /-- A `*strconv.NumError` with `Err = strconv.ErrSyntax`. -/
  | numInvalid (fn : String) (num : String)
  /-- A `*strconv.NumError` with `Err = strconv.ErrRange`. -/
  | numRange (fn : String) (num : String)
  /-- A `*net.AddrError`. -/
  | addr (msg : String) (address : String)
  deriving DecidableEq, Repr

/-- How a call can fail: by returning a non-nil error, or by a run-time panic. -/
inductive Fault where
  | err (e : Error)
  | runtimePanic (msg : String)
  deriving DecidableEq, Repr

/-- Whether a returned `error` value is a non-nil error (and not a panic). -/
def isError : Option Fault → Bool
  | some (.err _) => true
  | _ => false

/-- Whether the call ended in a run-time panic. -/
def isPanic : Option Fault → Bool
  | some (.runtimePanic _) => true
  | _ => false

/-- Turn the result of a library call into a step of a decoder. -/
def liftE {α : Type} : Except Error α → Except Fault α
  | .ok a => .ok a
  | .error e => .error (.err e)

/-- The index expression `xs[n]`: panics when `n` is out of range. -/
def index {α : Type} (xs : List α) (n : Nat) : Except Fault α :=
  match xs[n]? with
  | some x => .ok x
  | none => .error (.runtimePanic "index out of range")

/-! ## Machine integers -/

/-- Reduce an integer to the signed 64-bit value with the same low 64 bits:
    `(x + 2 ^ 63) % 2 ^ 64 - 2 ^ 63`, with the powers written out. -/
def wrapInt64 (x : Int) : Int :=
  (x + 9223372036854775808) % 18446744073709551616 - 9223372036854775808

/-- The conversions `int(u)` and `time.Duration(u)` of a `uint64`. -/
def toInt (u : Nat) : Int := wrapInt64 (u : Int)

/-- Multiplication of two `time.Duration` values. -/
def Duration.mul (a b : Int) : Int := wrapInt64 (a * b)

/-- Addition of two `time.Duration` values. -/
def Duration.add (a b : Int) : Int := wrapInt64 (a + b)

/-- The constant `time.Minute`, in nanoseconds. -/
def Minute : Int := 60 * 1000000000

/-- The constant `time.Hour`, in nanoseconds. -/
def Hour : Int := 60 * Minute

/-! ## Strings -/

/-- The predicate `unicode.IsSpace`. -/
def isSpace (c : Char) : Bool :=
  let n := c.toNat
  (0x09 ≤ n && n ≤ 0x0d) || n == 0x20 || n == 0x85 || n == 0xa0 || n == 0x1680 ||
  (0x2000 ≤ n && n ≤ 0x200a) || n == 0x2028 || n == 0x2029 || n == 0x202f ||
  n == 0x205f || n == 0x3000

/-- The scan of `strings.Fields`: `cur` holds the runes of the field being read,
    last rune first. -/
def fieldsLoop : List Char → List Char → List String
  | [], cur => if cur.isEmpty then [] else [String.mk cur.reverse]
  | c :: cs, cur =>
    if isSpace c then
      if cur.isEmpty then fieldsLoop cs [] else String.mk cur.reverse :: fieldsLoop cs []
    else fieldsLoop cs (c :: cur)

/-- The function `strings.Fields`: the maximal runs of non-space runes. -/
def Fields (s : String) : List String := fieldsLoop s.data []

/-- The function `strings.TrimSpace`. -/
def TrimSpace (s : String) : String :=
  String.mk ((s.data.dropWhile isSpace).reverse.dropWhile isSpace).reverse

/-- The largest `uint64`. -/
def maxUint64 : Nat := 2 ^ 64 - 1

/-- The digit loop of `strconv.ParseUint` for base 10 and 64 bits; `s0` is the
    whole input, `n` the value read so far. -/
def parseUintLoop (s0 : String) : List Char → Nat → Except Error Nat
  | [], n => .ok n
  | c :: cs, n =>
    if '0' ≤ c ∧ c ≤ '9' then
      let d := c.toNat - '0'.toNat
      if n ≥ maxUint64 / 10 + 1 then .error (.numRange "ParseUint" s0)
      else
        let n1 := n * 10 + d
        if n1 > maxUint64 then .error (.numRange "ParseUint" s0)
        else parseUintLoop s0 cs n1
    else .error (.numInvalid "ParseUint" s0)

/-- The call `strconv.ParseUint(s, 10, 64)`. -/
def ParseUint (s : String) : Except Error Nat :=
  if s = "" then .error (.numInvalid "ParseUint" s) else parseUintLoop s s.data 0

/-- The call `strconv.FormatUint(n, 10)`: the decimal numeral of `n`. -/
def FormatUint (n : Nat) : String := Nat.repr n

/-- The call `strconv.Itoa(i)`: the decimal numeral of `i`, with a minus sign
    when `i` is negative. -/
def Itoa (i : Int) : String :=
  if i < 0 then "-" ++ Nat.repr i.natAbs else Nat.repr i.natAbs

/-! ## Library parameters -/

/-- A `float64`, as its IEEE 754 binary64 bit pattern. -/
structure Float64 where
  bits : Nat
  deriving DecidableEq, Repr

/-- A `net.HardwareAddr`: a sequence of bytes. -/
abbrev HardwareAddr := List Nat

/-- The library operations the decoders call and this development does not fix. -/
structure Lib where
  /-- The call `strconv.ParseFloat(s, 64)`. -/
  ParseFloat : String → Except Error Float64
  /-- The call `net.ParseMAC(s)`. -/
  ParseMAC : String → Except Error HardwareAddr
  /-- The conversion `int(f)` of a `float64`. -/
  floatToInt : Float64 → Int

/-! ## A reference instance of the library parameters -/

/-- The number of binary digits of `n`, by halving at most `fuel` times. -/
def bitLength : Nat → Nat → Nat
  | 0, _ => 0
  | fuel + 1, n => if n = 0 then 0 else bitLength fuel (n / 2) + 1

/-- The bit pattern of the binary64 nearest to the rational `num / den` (`den`
    positive), ties to even. A value beyond the largest finite number gives the
    pattern of `+Inf`. -/
def roundBinary64 (num den : Nat) : Nat :=
  if num = 0 then 0
  else
    let l : Int := (bitLength num num : Int) - (bitLength den den : Int)
    let atLeast : Bool := if 0 ≤ l then den * 2 ^ l.toNat ≤ num else den ≤ num * 2 ^ (-l).toNat
    let e : Int := max (if atLeast then l else l - 1) (-1022)
    let u : Int := e - 52
    let n := if 0 ≤ u then num else num * 2 ^ (-u).toNat
    let d := if 0 ≤ u then den * 2 ^ u.toNat else den
    let q := n / d
    let r := n % d
    let m := if 2 * r > d ∨ (2 * r = d ∧ q % 2 = 1) then q + 1 else q
    min ((e + 1022).toNat * 2 ^ 52 + m) (2047 * 2 ^ 52)

/-- The value of `strconv.ParseFloat(s, 64)` on a plain decimal numeral: an
    optional sign, digits, and an optional point followed by digits. Every other
    input (exponents, hexadecimal numerals, underscores, infinities, NaN) is
    outside this instance and is rejected. -/
def refParseFloat (s : String) : Except Error Float64 :=
  let cs := s.data
  let neg := cs.head? = some '-'
  let cs := if cs.head? = some '-' ∨ cs.head? = some '+' then cs.tail else cs
  let ip := cs.takeWhile Char.isDigit
  let rest := cs.dropWhile Char.isDigit
  let fp := if rest.head? = some '.' then rest.tail.takeWhile Char.isDigit else []
  let rest := if rest.head? = some '.' then rest.tail.dropWhile Char.isDigit else rest
  if (ip ++ fp).isEmpty ∨ ¬ rest.isEmpty then .error (.numInvalid "ParseFloat" s)
  else
    let m := (ip ++ fp).foldl (fun n c => n * 10 + (c.toNat - '0'.toNat)) 0
    let bits := roundBinary64 m (10 ^ fp.length)
    if bits ≥ 2047 * 2 ^ 52 then .error (.numRange "ParseFloat" s)
    else .ok ⟨bits + if neg then 2 ^ 63 else 0⟩

/-- The conversion `int(f)` for a finite `f` whose integer part fits 64 bits:
    truncation toward zero. Every other `f` gives the smallest `int`, as on amd64.
    With biased exponent `ex` the magnitude is `mant * 2 ^ (ex - 1075)`: below 1
    when `ex < 1023`, and at least `2 ^ 63` when `ex ≥ 1086`. -/
def refFloatToInt (f : Float64) : Int :=
  let ex := f.bits / 2 ^ 52 % 2048
  let frac := f.bits % 2 ^ 52
  let mant := frac + 2 ^ 52
  if ex ≥ 1086 then -(9223372036854775808 : Int)
  else
    let mag : Nat :=
      if ex < 1023 then 0
      else if ex ≥ 1075 then mant * 2 ^ (ex - 1075) else mant / 2 ^ (1075 - ex)
    if f.bits / 2 ^ 63 % 2 = 1 then -(mag : Int) else (mag : Int)

/-- The value of a hexadecimal digit. -/
def hexVal (c : Char) : Option Nat :=
  if '0' ≤ c ∧ c ≤ '9' then some (c.toNat - '0'.toNat)
  else if 'a' ≤ c ∧ c ≤ 'f' then some (c.toNat - 'a'.toNat + 10)
  else if 'A' ≤ c ∧ c ≤ 'F' then some (c.toNat - 'A'.toNat + 10)
  else none

/-- Read groups of two hexadecimal digits separated by `sep`. -/
def macGroups (sep : Char) : List Char → Option (List Nat)
  | [a, b] => do
    let x ← hexVal a
    let y ← hexVal b
    pure [x * 16 + y]
  | a :: b :: c :: rest =>
    if c = sep then do
      let x ← hexVal a
      let y ← hexVal b
      let tl ← macGroups sep rest
      pure ((x * 16 + y) :: tl)
    else none
  | _ => none

/-- The value of `net.ParseMAC(s)` on an address of 6, 8 or 20 groups of two
    hexadecimal digits separated by colons or by dashes. Every other input (the
    dotted form among them) is outside this instance and is rejected. -/
def refParseMAC (s : String) : Except Error HardwareAddr :=
  match s.data with
  | _ :: _ :: sep :: _ =>
    if sep = ':' ∨ sep = '-' then
      match macGroups sep s.data with
      | some hw =>
        if hw.length = 6 ∨ hw.length = 8 ∨ hw.length = 20 then .ok hw
        else .error (.addr "invalid MAC address" s)
      | none => .error (.addr "invalid MAC address" s)
    else .error (.addr "invalid MAC address" s)
  | _ => .error (.addr "invalid MAC address" s)

/-- A reference instance of `Lib` on which the decoders can be run. It agrees
    with the Go library on plain decimal numerals and on colon- or dash-separated
    hardware addresses, and rejects every input outside these forms. -/
def refLib : Lib where
  ParseFloat := refParseFloat
  ParseMAC := refParseMAC
  floatToInt := refFloatToInt

/-! ## Data model (`status.go`) -/

/-- Downstream indicates the status of a downstream connection. -/
structure Downstream where
  Name : String
  DCID : Int
  Frequency : Float64
  Power : Float64
  SNR : Float64
  Modulation : String
  Octets : Nat
  Corrected : Nat
  Uncorrectable : Nat
  deriving DecidableEq, Repr

/-- Upstream indicates the status of an upstream connection. -/
structure Upstream where
  Name : String
  UCID : Int
  Frequency : Float64
  Power : Float64
  ChannelType : String
  SymbolRate : Int
  Modulation : String
  deriving DecidableEq, Repr

/-- An Interface indicates the status of a network interface. -/
structure Interface where
  Name : String
  Provisioned : Bool
  Up : Bool
  Speed : String
  MAC : HardwareAddr
  deriving DecidableEq, Repr

/-- Status is the status of an Arris modem. `Uptime` is a `time.Duration`, a
    signed count of nanoseconds. -/
structure Status where
  Downstream : List Downstream := []
  Upstream : List Upstream := []
  Uptime : Int := 0
  Interfaces : List Interface := []
  deriving DecidableEq, Repr

/-! ## Section decoders (`status.go`) -/

/-- The body of the loop of `parseDownstream`: decode one row. -/
def downstreamRow (L : Lib) (r : List String) : Except Fault Downstream := do
  if r.length ≠ 9 then
    throw (.err (.text "arris: incorrect number of row elements for downstream"))
  let ints ← [1, 6, 7, 8].mapM fun n => do
    let tok ← index r n
    liftE (ParseUint tok)
  let floats ← [2, 3, 4].mapM fun n => do
    let tok ← index r n
    let ss := Fields tok
    if ss.length ≠ 2 then
      throw (.err (.errorf "arris: malformed downstream float64: %q" [tok]))
    liftE (L.ParseFloat (← index ss 0))
  return {
    Name := ← index r 0
    DCID := toInt (← index ints 0)
    Frequency := ← index floats 0
    Power := ← index floats 1
    SNR := ← index floats 2
    Modulation := ← index r 5
    Octets := ← index ints 1
    Corrected := ← index ints 2
    Uncorrectable := ← index ints 3 }

/-- Method `parseDownstream` parses downstream status data from incoming rows. -/
def Status.parseDownstream (L : Lib) (s : Status) : List (List String) → Status × Option Fault
  | [] => (s, none)
  | r :: rows =>
    match downstreamRow L r with
    | .error f => (s, some f)
    | .ok d => Status.parseDownstream L { s with Downstream := s.Downstream ++ [d] } rows

/-- The body of the loop of `parseUpstream`: decode one row. -/
def upstreamRow (L : Lib) (r : List String) : Except Fault Upstream := do
  if r.length ≠ 7 then
    throw (.err (.text "arris: incorrect number of row elements for upstream"))
  let ucid ← liftE (ParseUint (← index r 1))
  let floats ← [2, 3, 5].mapM fun n => do
    let tok ← index r n
    let ss := Fields tok
    if ss.length ≠ 2 then
      throw (.err (.errorf "arris: malformed upstream float64: %q" [tok]))
    let v ← index ss 0
    let v := if v = "----" then "0.0" else v
    liftE (L.ParseFloat v)
  return {
    Name := ← index r 0
    UCID := toInt ucid
    Frequency := ← index floats 0
    Power := ← index floats 1
    ChannelType := ← index r 4
    SymbolRate := L.floatToInt (← index floats 2)
    Modulation := ← index r 6 }

/-- Method `parseUpstream` parses upstream status data from incoming rows. -/
def Status.parseUpstream (L : Lib) (s : Status) : List (List String) → Status × Option Fault
  | [] => (s, none)
  | r :: rows =>
    match upstreamRow L r with
    | .error f => (s, some f)
    | .ok u => Status.parseUpstream L { s with Upstream := s.Upstream ++ [u] } rows

/-- The part of `parseUptime` that computes the duration from the row. -/
def uptimeOf (row : List String) : Except Fault Int := do
  if row.length ≠ 2 then
    throw (.err (.errorf "arris: malformed uptime: %v" row))
  let fields := Fields (← index row 1)
  let durs ← [0, 2, 4].mapM fun n => do
    let d ← liftE (ParseUint (← index fields n))
    pure (toInt d)
  return Duration.add
    (Duration.add
      (Duration.mul (Duration.mul (← index durs 0) 24) Hour)
      (Duration.mul (← index durs 1) Hour))
    (Duration.mul (← index durs 2) Minute)

/-- Method `parseUptime` parses the system's uptime. -/
def Status.parseUptime (s : Status) (row : List String) : Status × Option Fault :=
  match uptimeOf row with
  | .error f => (s, some f)
  | .ok d => ({ s with Uptime := d }, none)

/-- Method `parseSystem` parses system status information. -/
def Status.parseSystem (s : Status) : List (List String) → Status × Option Fault
  | [] => (s, none)
  | r :: rows =>
    match index r 0 with
    | .error f => (s, some f)
    | .ok first =>
      let (s1, err) := if first = "System Uptime:" then s.parseUptime r else (s, none)
      match err with
      | some f => (s1, some f)
      | none => Status.parseSystem s1 rows

/-- The body of the loop of `parseInterfaces`: decode one row. -/
def interfaceRow (L : Lib) (r : List String) : Except Fault Interface := do
  if r.length ≠ 5 then
    throw (.err (.text "arris: incorrect number of row elements for interface"))
  let speed ← index r 3
  let speed := if speed = "-----" then "n/a" else speed
  let mac ← liftE (L.ParseMAC (← index r 4))
  return {
    Name := ← index r 0
    Provisioned := (← index r 1) == "Enabled"
    Up := (← index r 2) == "Up"
    Speed := speed
    MAC := mac }

/-- Method `parseInterfaces` parses interface information from incoming rows. -/
def Status.parseInterfaces (L : Lib) (s : Status) : List (List String) → Status × Option Fault
  | [] => (s, none)
  | r :: rows =>
    match interfaceRow L r with
    | .error f => (s, some f)
    | .ok i => Status.parseInterfaces L { s with Interfaces := s.Interfaces ++ [i] } rows

/-- Method `parse` is the entry point for raw data to be parsed into Status. -/
def Status.parse (L : Lib) (s : Status) (rows : List (List String)) : Status × Option Fault :=
  match rows with
  | [] => (s, some (.err (.text "arris: no status rows available to parse")))
  | [] :: _ => (s, some (.err (.text "arris: no status rows available to parse")))
  | (first :: _) :: rest =>
    if first = "DCID" then s.parseDownstream L rest
    else if first = "UCID" then s.parseUpstream L rest
    else if first = "System Uptime:" then s.parseSystem rows
    else if first = "Interface Name" then s.parseInterfaces L rest
    else (s, none)

/-! ## Row extraction (`parse.go`) -/

/-- The kinds of `html.Node`. -/
inductive NodeType where
  | ErrorNode | TextNode | DocumentNode | ElementNode | CommentNode | DoctypeNode
  deriving DecidableEq, Repr

/-- An `html.Node` with the fields the walk reads: its kind, its `Data` (the tag
    name of an element, the content of a text or comment node) and its children
    from `FirstChild` along `NextSibling`. -/
inductive Node where
  | mk (type : NodeType) (data : String) (children : List Node)

/-- Field `Type` of a node. -/
def Node.Type : Node → NodeType
  | .mk t _ _ => t

/-- Field `Data` of a node. -/
def Node.Data : Node → String
  | .mk _ d _ => d

/-- The children of a node, in sibling order. -/
def Node.children : Node → List Node
  | .mk _ _ cs => cs

mutual
/-- The closure `walk` of `parseTableRow`, as a function from `out` before the
    call to `out` after it. -/
def parseTableRow.walk (out : List String) : Node → List String
  | .mk _ _ cs => parseTableRow.walkChildren out cs
/-- The loop of that closure over the children still to visit. -/
def parseTableRow.walkChildren (out : List String) : List Node → List String
  | [] => out
  | c :: rest =>
    let out1 := parseTableRow.walk out c
    let d := TrimSpace c.Data
    if d = "" ∨ d = "b" ∨ d = "font" ∨ d = "td" then parseTableRow.walkChildren out1 rest
    else parseTableRow.walkChildren (out1 ++ [d]) rest
end

/-- Function `parseTableRow` parses a single row of data, stripping all of the
    unnecessary elements. -/
def parseTableRow (tr : Node) : List String := parseTableRow.walk [] tr

mutual
/-- The closure `walk` of `walkTBody`, as a function from `rows` before the call
    to `rows` after it. -/
def walkTBody.walk (rows : List (List String)) : Node → List (List String)
  | .mk _ _ cs => walkTBody.walkChildren rows cs
/-- The loop of that closure over the children still to visit. -/
def walkTBody.walkChildren (rows : List (List String)) : List Node → List (List String)
  | [] => rows
  | c :: rest =>
    let rows1 := walkTBody.walk rows c
    if c.Data ≠ "tr" then walkTBody.walkChildren rows1 rest
    else
      let r := parseTableRow c
      if r.length = 0 then walkTBody.walkChildren rows1 rest
      else walkTBody.walkChildren (rows1 ++ [r]) rest
end

/-- Function `walkTBody` walks through a tbody element to parse elements from its
    tr element children. -/
def walkTBody (tbody : Node) : List (List String) := walkTBody.walk [] tbody

mutual
/-- The closure `walk` of `Parse`, as a function from the shared `Status` before
    the call to the `Status` after it and the returned error. -/
def Parse.walk (L : Lib) (s : Status) : Node → Status × Option Fault
  | .mk _ _ cs => Parse.walkChildren L s cs
/-- The loop of that closure over the children still to visit. The values the
    recursive call `walk(c)` returns are dropped; only a panic unwinds. -/
def Parse.walkChildren (L : Lib) (s : Status) : List Node → Status × Option Fault
  | [] => (s, none)
  | c :: rest =>
    match Parse.walk L s c with
    | (s1, some (.runtimePanic m)) => (s1, some (.runtimePanic m))
    | (s1, _) =>
      if c.Data ≠ "tbody" then Parse.walkChildren L s1 rest
      else
        match s1.parse L (walkTBody c) with
        | (s2, some f) => (s2, some f)
        | (s2, none) => Parse.walkChildren L s2 rest
end

/-- Function `Parse` parses Arris modem status from an input HTML document, here
    from the tree `html.Parse` has built: `.ok s` is the return of `(s, nil)`,
    `.error (.err e)` the return of `(nil, e)`. -/
def Parse (L : Lib) (node : Node) : Except Fault Status :=
  match Parse.walk L {} node with
  | (s, none) => .ok s
  | (_, some f) => .error f

/-! ## The request handler (`handler.go`) -/

/-- The position of the first `c` in `cs`, as `bytealg.IndexByteString` finds it. -/
def indexByte (c : Char) : List Char → Option Nat
  | [] => none
  | x :: xs => if x = c then some 0 else (indexByte c xs).map (· + 1)

/-- The position of the last `c` in `cs`, as `bytealg.LastIndexByteString` finds it. -/
def lastIndexByte (c : Char) : List Char → Option Nat
  | [] => none
  | x :: xs =>
    match lastIndexByte c xs with
    | some i => some (i + 1)
    | none => if x = c then some 0 else none

/-- The function `net.SplitHostPort`. -/
def SplitHostPort (hostport : String) : Except Error (String × String) :=
  let hp := hostport.data
  match lastIndexByte ':' hp with
  | none => .error (.addr "missing port in address" hostport)
  | some i =>
    let bracketed : Except Error (List Char × Nat × Nat) :=
      if hp.head? = some '[' then
        match indexByte ']' hp with
        | none => .error (.addr "missing ']' in address" hostport)
        | some e =>
          if e + 1 = hp.length then .error (.addr "missing port in address" hostport)
          else if e + 1 = i then .ok ((hp.take e).drop 1, 1, e + 1)
          else if hp[e + 1]? = some ':' then
            .error (.addr "too many colons in address" hostport)
          else .error (.addr "missing port in address" hostport)
      else if (indexByte ':' (hp.take i)).isSome then
        .error (.addr "too many colons in address" hostport)
      else .ok (hp.take i, 0, 0)
    match bracketed with
    | .error e => .error e
    | .ok (host, j, k) =>
      if (indexByte '[' (hp.drop j)).isSome then
        .error (.addr "unexpected '[' in address" hostport)
      else if (indexByte ']' (hp.drop k)).isSome then
        .error (.addr "unexpected ']' in address" hostport)
      else .ok (String.mk host, String.mk (hp.drop (i + 1)))

/-- The function `net.JoinHostPort`. -/
def JoinHostPort (host port : String) : String :=
  if (indexByte ':' host.data).isSome then "[" ++ host ++ "]:" ++ port
  else host ++ ":" ++ port

/-- What `ServeHTTP` does with a request: the address it passes to `dial`, when
    it calls `dial` at all, and the response it writes. -/
inductive Served (Client : Type) where
  /-- The call `http.Error(w, body, code)` before any call of `dial`. -/
  | rejected (body : String) (code : Nat)
  /-- The call `http.Error` after `dial addr` returned `err`; the body is
      `failed to dial arris device at %q: %v` formatted with `addr` and `err`. -/
  | dialFailed (addr : String) (err : Error) (code : Nat)
  /-- The metrics of the client that `dial addr` returned are served. -/
  | metrics (addr : String) (c : Client)

/-- Method `ServeHTTP` of the handler built by `NewHandler dial`; `target` is
    `r.URL.Query().Get("target")`. -/
def ServeHTTP {Client : Type} (dial : String → Except Error Client) (target : String) :
    Served Client :=
  if target = "" then .rejected "missing target parameter" 400
  else
    let (host, port) :=
      match SplitHostPort target with
      | .ok (host, port) => (host, port)
      | .error _ => (target, "80")
    let addr := JoinHostPort host port
    match dial ("http://" ++ addr) with
    | .error err => .dialFailed addr err 500
    | .ok c => .metrics ("http://" ++ addr) c

/-- The address `ServeHTTP` passes to `dial`, if it calls `dial`. -/
def dialedAddress (target : String) : Option String :=
  match ServeHTTP (fun addr => (.ok addr : Except Error String)) target with
  | .metrics _ addr => some addr
  | _ => none

/-! ## The collector (`collector.go`) -/

/-- A `prometheus.Desc`: the arguments of `prometheus.NewDesc` that are not nil. -/
structure Desc where
  fqName : String
  help : String
  variableLabels : List String
  deriving DecidableEq, Repr

/-- The type `prometheus.ValueType`; `unset` is its zero value. -/
inductive ValueType where
  | unset | CounterValue | GaugeValue | UntypedValue
  deriving DecidableEq, Repr

/-- The `float64` a metric carries, by the expression that computes it. -/
inductive Value where
  /-- A `float64` field of the status. -/
  | float (f : Float64)
  /-- The conversion `float64(n)` of a `uint64`. -/
  | ofUint64 (n : Nat)
  /-- The conversion `float64(i)` of an `int`. -/
  | ofInt (i : Int)
  /-- The call `d.Seconds()` on a `time.Duration` of `d` nanoseconds. -/
  | seconds (d : Int)
  /-- The constant `1.0`. -/
  | one
  /-- The zero value of `float64`. -/
  | zero
  deriving DecidableEq, Repr

/-- A `prometheus.Metric` sent on the channel. -/
inductive Metric where
  /-- The result of `prometheus.MustNewConstMetric(desc, valueType, value, labelValues...)`. -/
  | const (desc : Desc) (valueType : ValueType) (value : Value) (labelValues : List String)
  /-- The result of `prometheus.NewInvalidMetric(desc, err)`. -/
  | invalid (desc : Desc) (err : Error)
  deriving DecidableEq, Repr

/-- The descriptor of a metric. -/
def Metric.desc : Metric → Desc
  | .const d _ _ _ => d
  | .invalid d _ => d

/-- A collector is a prometheus.Collector for a device; its client `c` is
    passed to `Collect` as the result of `c.c.Status()`. -/
structure collector where
  UptimeSecondsTotal : Desc
  DownstreamPowerDBMV : Desc
  DownstreamBytesTotal : Desc
  DownstreamCorrectedSymbolsTotal : Desc
  DownstreamUncorrectableSymbolsTotal : Desc
  UpstreamPowerDBMV : Desc
  UpstreamSymbolRate : Desc
  InterfacesInfo : Desc
  InterfacesProvisioned : Desc
  InterfacesUp : Desc
  deriving DecidableEq, Repr

/-- Function `newCollector` constructs a collector using a device. -/
def newCollector : collector where
  UptimeSecondsTotal :=
    ⟨"arris_uptime_seconds_total", "Device uptime in seconds.", []⟩
  DownstreamPowerDBMV :=
    ⟨"arris_downstream_power_dbmv",
      "Current power level for the downstream connection in dBmV.", ["name"]⟩
  DownstreamBytesTotal :=
    ⟨"arris_downstream_bytes_total", "Number of downstream bytes total.", ["name"]⟩
  DownstreamCorrectedSymbolsTotal :=
    ⟨"arris_downstream_corrected_symbols_total",
      "Number of downstream corrected symbols total.", ["name"]⟩
  DownstreamUncorrectableSymbolsTotal :=
    ⟨"arris_downstream_uncorrectable_symbols_total",
      "Number of downstream uncorrectable symbols total.", ["name"]⟩
  UpstreamPowerDBMV :=
    ⟨"arris_upstream_power_dbmv",
      "Current power level for the upstream connection in dBmV.", ["name"]⟩
  UpstreamSymbolRate :=
    ⟨"arris_upstream_symbols_per_second",
      "Current symbol rate for the upstream connection in symbols per second.", ["name"]⟩
  InterfacesInfo :=
    ⟨"arris_interfaces_info", "Information about an interface.", ["name", "speed", "mac"]⟩
  InterfacesProvisioned :=
    ⟨"arris_interfaces_provisioned",
      "Whether or not a network interface is provisioned (0 - false, 1 - true).", ["name"]⟩
  InterfacesUp :=
    ⟨"arris_interfaces_up",
      "Whether or not a network interface is up (0 - false, 1 - true).", ["name"]⟩

/-- The two lower-case hexadecimal digits of a byte. -/
def hexByte (b : Nat) : String :=
  String.mk [Nat.digitChar (b / 16 % 16), Nat.digitChar (b % 16)]

/-- Method `String` of `net.HardwareAddr`: the bytes in hexadecimal, separated
    by colons. -/
def HardwareAddr.String (a : HardwareAddr) : String :=
  ":".intercalate (a.map hexByte)

/-- Method `collectDownstream`: the metrics it sends, in order. -/
def collector.collectDownstream (c : collector) : List Downstream → List Metric
  | [] => []
  | ds :: rest =>
    let pairs : List (Desc × ValueType × Value) := [
      (c.DownstreamPowerDBMV, .GaugeValue, .float ds.Power),
      (c.DownstreamBytesTotal, .unset, .ofUint64 ds.Octets),
      (c.DownstreamCorrectedSymbolsTotal, .unset, .ofUint64 ds.Corrected),
      (c.DownstreamUncorrectableSymbolsTotal, .unset, .ofUint64 ds.Uncorrectable)]
    pairs.map (fun p =>
      let t := if p.2.1 = .unset then ValueType.CounterValue else p.2.1
      Metric.const p.1 t p.2.2 [ds.Name])
    ++ collector.collectDownstream c rest

/-- Method `collectUpstream`: the metrics it sends, in order. -/
def collector.collectUpstream (c : collector) : List Upstream → List Metric
  | [] => []
  | us :: rest =>
    let pairs : List (Desc × Value) := [
      (c.UpstreamPowerDBMV, .float us.Power),
      (c.UpstreamSymbolRate, .ofInt (wrapInt64 (us.SymbolRate * 1000)))]
    pairs.map (fun p => Metric.const p.1 .GaugeValue p.2 [us.Name])
    ++ collector.collectUpstream c rest

/-- Method `collectInterfaces`: the metrics it sends, in order. -/
def collector.collectInterfaces (c : collector) : List Interface → List Metric
  | [] => []
  | ifi :: rest =>
    let pairs : List (Desc × Bool) := [
      (c.InterfacesProvisioned, ifi.Provisioned),
      (c.InterfacesUp, ifi.Up)]
    Metric.const c.InterfacesInfo .GaugeValue .one
        [ifi.Name, ifi.Speed, HardwareAddr.String ifi.MAC]
      :: pairs.map (fun p =>
        Metric.const p.1 .GaugeValue (if p.2 then Value.one else Value.zero) [ifi.Name])
    ++ collector.collectInterfaces c rest

/-- Method `Collect` implements prometheus.Collector: the metrics it sends on the
    channel, in order. `status` is what `c.c.Status()` returned. -/
def collector.Collect (c : collector) (status : Except Error Status) : List Metric :=
  match status with
  | .error err => [Metric.invalid c.UptimeSecondsTotal err]
  | .ok st =>
    Metric.const c.UptimeSecondsTotal .CounterValue (.seconds st.Uptime) []
      :: (c.collectDownstream st.Downstream ++ c.collectUpstream st.Upstream
        ++ c.collectInterfaces st.Interfaces)

/-- Method `Status` of `arris.Client` fetches a Status structure from the modem
    (`client.go`). `page` is what the fetch gave: the tree `html.Parse` built from
    the response body, or the error of `c.c.Get` or of `html.Parse`. -/
def Client.Status (L : Lib) (page : Except Error Node) : Except Fault Status :=
  match page with
  | .error err => .error (.err err)
  | .ok node => Parse L node

/-- Method `Collect` together with the call `c.c.Status()` it starts with: the
    metrics sent on the channel, and the panic that ended the call, if any. A panic
    inside `c.c.Status()` precedes every send. -/
def collector.CollectPage (c : collector) (L : Lib) (page : Except Error Node) :
    List Metric × Option Fault :=
  match Client.Status L page with
  | .ok st => (c.Collect (.ok st), none)
  | .error (.err err) => (c.Collect (.error err), none)
  | .error (.runtimePanic m) => ([], some (.runtimePanic m))

/-! ## Notions used to state the properties -/

/-- The records a row decoder yields on the rows before the first row it fails
    on, and that failure (`none` when every row decodes). -/
def decodeRows {α : Type} (f : List String → Except Fault α) :
    List (List String) → List α × Option Fault
  | [] => ([], none)
  | r :: rows =>
    match f r with
    | .error e => ([], some e)
    | .ok a => (a :: (decodeRows f rows).1, (decodeRows f rows).2)

/-- A decoding step does not end in a run-time panic. -/
def NoPanic {α : Type} (x : Except Fault α) : Prop := ∀ m, x ≠ .error (.runtimePanic m)

/-- A well-formed downstream row and the record it stands for: 9 tokens, tokens
    1, 6, 7, 8 unsigned decimal integers, tokens 2, 3, 4 a number and a unit. The
    channel id is the value of token 1 converted to `int`. -/
def WellFormedDownstream (L : Lib) (r : List String) (d : Downstream) : Prop :=
  ∃ t0 t1 t2 t3 t4 t5 t6 t7 t8 v1 v6 v7 v8 n2 u2 n3 u3 n4 u4 f2 f3 f4,
    r = [t0, t1, t2, t3, t4, t5, t6, t7, t8] ∧
    ParseUint t1 = .ok v1 ∧ ParseUint t6 = .ok v6 ∧
    ParseUint t7 = .ok v7 ∧ ParseUint t8 = .ok v8 ∧
    Fields t2 = [n2, u2] ∧ L.ParseFloat n2 = .ok f2 ∧
    Fields t3 = [n3, u3] ∧ L.ParseFloat n3 = .ok f3 ∧
    Fields t4 = [n4, u4] ∧ L.ParseFloat n4 = .ok f4 ∧
    d = { Name := t0, DCID := toInt v1, Frequency := f2, Power := f3, SNR := f4,
          Modulation := t5, Octets := v6, Corrected := v7, Uncorrectable := v8 }

/-- A decimal numeral without superfluous leading zeros: `"0"` itself, or a
    string that does not start with the digit zero. -/
def NoLeadingZero (t : String) : Prop := t = "0" ∨ t.data.head? ≠ some '0'

/-- The exact uptime, in nanoseconds, of `d` days, `h` hours and `m` minutes. -/
def exactUptime (d h m : Nat) : Int :=
  (d : Int) * 24 * Hour + (h : Int) * Hour + (m : Int) * Minute

/-- The value-and-unit step of `parseDownstream` on one token. -/
def downstreamFloat (L : Lib) (t : String) : Except Fault Float64 :=
  match Fields t with
  | [n, _] => liftE (L.ParseFloat n)
  | _ => .error (.err (.errorf "arris: malformed downstream float64: %q" [t]))

/-- The value-and-unit step of `parseUpstream` on one token. -/
def upstreamFloat (L : Lib) (t : String) : Except Fault Float64 :=
  match Fields t with
  | [n, _] => liftE (L.ParseFloat (if n = "----" then "0.0" else n))
  | _ => .error (.err (.errorf "arris: malformed upstream float64: %q" [t]))

mutual
/-- The descendants of a node, each after its own descendants and siblings left
    to right: the order in which the walks of `parse.go` handle them. -/
def Node.descendants : Node → List Node
  | .mk _ _ cs => descendantsOfList cs
/-- The nodes of a list of siblings with their descendants, in that order. -/
def descendantsOfList : List Node → List Node
  | [] => []
  | c :: rest => c.descendants ++ c :: descendantsOfList rest
end

mutual
/-- The descendants of a node in document order: each before its own
    descendants, siblings left to right. -/
def Node.descendantsDocumentOrder : Node → List Node
  | .mk _ _ cs => documentOrderOfList cs
/-- The nodes of a list of siblings with their descendants, in document order. -/
def documentOrderOfList : List Node → List Node
  | [] => []
  | c :: rest => c :: (c.descendantsDocumentOrder ++ documentOrderOfList rest)
end

/-- The token a node contributes to its row, if any: its trimmed `Data`, unless
    that is empty or one of `b`, `font`, `td`. -/
def tokenOf (n : Node) : Option String :=
  let d := TrimSpace n.Data
  if d = "" ∨ d = "b" ∨ d = "font" ∨ d = "td" then none else some d

/-- A string neither starts nor ends with a white-space rune. -/
def Trimmed (t : String) : Prop :=
  (∀ c, t.data.head? = some c → isSpace c = false) ∧
  (∀ c, t.data.getLast? = some c → isSpace c = false)

/-- The row groups of the nodes of a list whose `Data` is `tbody`. -/
def groupsOf (nodes : List Node) : List (List (List String)) :=
  (nodes.filter fun n => n.Data = "tbody").map walkTBody

/-- Decode row groups one after the other into a `Status`, up to the first
    group that fails. -/
def decodeGroups (L : Lib) (s : Status) : List (List (List String)) → Status × Option Fault
  | [] => (s, none)
  | g :: gs =>
    match s.parse L g with
    | (s1, some f) => (s1, some f)
    | (s1, none) => decodeGroups L s1 gs

/-! ## Worked examples -/

/-- An element node. -/
def element (tag : String) (children : List Node) : Node := .mk .ElementNode tag children

/-- A text node. -/
def textNode (content : String) : Node := .mk .TextNode content []

/-- The row `<tr><td>c₁</td>…<td>cₙ</td></tr>`. -/
def tableRow (cells : List String) : Node :=
  element "tr" (cells.map fun c => element "td" [textNode c])

/-- The downstream row of the end-to-end example. -/
def rowCH1 : List String :=
  ["CH1", "1", "591.0 MHz", "2.1 dBmV", "38.5 dB", "QAM256", "123456", "10", "0"]

/-- The record of the end-to-end example; the floats are the binary64 numbers
    nearest to 591.0, 2.1 and 38.5. -/
def recordCH1 : Downstream :=
  { Name := "CH1", DCID := 1, Frequency := ⟨0x4082780000000000⟩,
    Power := ⟨0x4000CCCCCCCCCCCD⟩, SNR := ⟨0x4043400000000000⟩, Modulation := "QAM256",
    Octets := 123456, Corrected := 10, Uncorrectable := 0 }

/-- A downstream group whose second data row has 2 tokens instead of 9. -/
def failingGroup : Node :=
  element "tbody" [tableRow ["DCID"], tableRow rowCH1, tableRow ["CH2", "2"]]

/-- A document with three tables: an uptime group, `failingGroup`, and an
    interface group. -/
def exampleDocument : Node :=
  .mk .DocumentNode "" [element "html" [element "head" [], element "body" [
    element "table" [element "tbody" [tableRow ["System Uptime:", "2 d: 3 h: 15 m"]]],
    element "table" [failingGroup],
    element "table" [element "tbody" [tableRow ["Interface Name"],
      tableRow ["LAN", "Enabled", "Up", "1000(Full)", "00:1d:d0:aa:bb:cc"]]]]]]

/-- A document in which one uptime group contains another, as `html.Parse`
    builds it for a table nested in a cell: the first row of the outer table has
    a text cell and a cell that holds the inner table, whose uptime is 2 days;
    the second row of the outer table is its own uptime row, of 1 day. -/
def nestedDocument : Node :=
  .mk .DocumentNode "" [element "html" [element "head" [], element "body" [
    element "table" [element "tbody" [
      element "tr" [
        element "td" [textNode "Foo"],
        element "td" [element "table" [element "tbody" [
          tableRow ["System Uptime:", "2 d: 0 h: 0 m"]]]]],
      tableRow ["System Uptime:", "1 d: 0 h: 0 m"]]]]]]

/-- A document whose only group is an uptime row with too few fields. -/
def shortUptimeDocument : Node :=
  .mk .DocumentNode "" [element "html" [element "head" [], element "body" [
    element "table" [element "tbody" [tableRow ["System Uptime:", "5 d"]]]]]]

/-- An upstream row whose symbol rate is the sentinel. -/
def rowUS1 : List String :=
  ["US1", "5", "30.6 MHz", "45.0 dBmV", "DOCSIS2.0 (ATDMA)", "---- kSym/s", "16QAM"]

/-- An interface row with a speed, and one without. -/
def rowLAN : List String := ["LAN", "Enabled", "Up", "1000(Full)", "00:1d:d0:aa:bb:cc"]

/-- An interface row whose provisioning and link tokens differ from the
    literals in case, and whose speed is the sentinel. -/
def rowCable : List String := ["CABLE", "enabled", "UP", "-----", "00:1d:d0:aa:bb:cd"]

/-- A row whose only cell holds the text `b`. -/
def rowOfB : Node := tableRow ["b"]

/-! ## Machine integers: lemmas -/

theorem wrapInt64_modEq (x : Int) : wrapInt64 x ≡ x [ZMOD 2 ^ 64] := by
  unfold wrapInt64 Int.ModEq
  omega

theorem wrapInt64_of_modEq {x y : Int} (h : x ≡ y [ZMOD 2 ^ 64]) : wrapInt64 x = wrapInt64 y := by
  unfold wrapInt64 Int.ModEq at *
  omega

theorem wrapInt64_eq_self_iff (x : Int) : wrapInt64 x = x ↔ -2 ^ 63 ≤ x ∧ x < 2 ^ 63 := by
  unfold wrapInt64
  omega

theorem toInt_of_lt {v : Nat} (h : v < 2 ^ 63) : toInt v = v := by
  unfold toInt wrapInt64
  omega

/-- The three wrapping products and two wrapping sums of `parseUptime` amount to
    one reduction of the exact value. -/
theorem duration_sum_eq (d h m : Nat) :
    Duration.add (Duration.add (Duration.mul (Duration.mul (toInt d) 24) Hour)
      (Duration.mul (toInt h) Hour)) (Duration.mul (toInt m) Minute)
    = wrapInt64 (exactUptime d h m) := by
  unfold Duration.add Duration.mul toInt exactUptime
  apply wrapInt64_of_modEq
  have hd := wrapInt64_modEq d
  have hh := wrapInt64_modEq h
  have hm := wrapInt64_modEq m
  refine ((wrapInt64_modEq _).trans ?_).add ((wrapInt64_modEq _).trans (hm.mul_right _))
  refine ((wrapInt64_modEq _).trans ?_).add ((wrapInt64_modEq _).trans (hh.mul_right _))
  exact ((wrapInt64_modEq _).trans (hd.mul_right _)).mul_right _

theorem exactUptime_nonneg (d h m : Nat) : 0 ≤ exactUptime d h m := by
  unfold exactUptime Hour Minute
  positivity

/-! ## The uptime decoder: lemmas -/

/-- The duration `parseUptime` computes when fields 0, 2 and 4 are numerals. -/
theorem uptimeOf_eq (a t f0 f2 f4 : String) (d h m : Nat)
    (h0 : (Fields t)[0]? = some f0) (h2 : (Fields t)[2]? = some f2)
    (h4 : (Fields t)[4]? = some f4)
    (hd : ParseUint f0 = .ok d) (hh : ParseUint f2 = .ok h) (hm : ParseUint f4 = .ok m) :
    uptimeOf [a, t] = .ok (wrapInt64 (exactUptime d h m)) := by
  have i0 : index (Fields t) 0 = .ok f0 := by simp only [index, h0]
  have i2 : index (Fields t) 2 = .ok f2 := by simp only [index, h2]
  have i4 : index (Fields t) 4 = .ok f4 := by simp only [index, h4]
  have l0 : liftE (ParseUint f0) = .ok d := by simp only [hd, liftE]
  have l2 : liftE (ParseUint f2) = .ok h := by simp only [hh, liftE]
  have l4 : liftE (ParseUint f4) = .ok m := by simp only [hm, liftE]
  have r1 : index [a, t] 1 = .ok t := rfl
  rw [← duration_sum_eq]
  unfold uptimeOf
  simp only [List.length_cons, List.length_nil, r1, List.mapM, List.mapM.loop, i0, i2, i4, l0, l2,
    l4, bind, Except.bind, pure, Except.pure, List.reverse_cons, List.reverse_nil,
    List.nil_append, List.cons_append]
  simp only [index, Nat.zero_add, Nat.reduceAdd, ne_eq, not_true_eq_false, ite_false,
    List.getElem?_cons_zero, List.getElem?_cons_succ, reduceIte]

/-- A row of another length than 2 is rejected with an error. -/
theorem uptimeOf_wrong_length (row : List String) (h : row.length ≠ 2) :
    uptimeOf row = .error (.err (.errorf "arris: malformed uptime: %v" row)) := by
  unfold uptimeOf
  simp only [ne_eq, h, not_false_eq_true, ite_true, bind, Except.bind, throw, throwThe,
    MonadExceptOf.throw]

/-! ## Decimal numerals: lemmas -/

theorem toDigitsCore_append (fuel : Nat) : ∀ n ds, n < fuel →
    Nat.toDigitsCore 10 fuel n ds = Nat.toDigits 10 n ++ ds := by
  induction fuel using Nat.strong_induction_on with
  | _ fuel ih =>
    intro n ds hn
    cases fuel with
    | zero => omega
    | succ fuel =>
      unfold Nat.toDigits
      simp only [Nat.toDigitsCore]
      by_cases h0 : n / 10 = 0
      · simp [h0]
      · simp only [h0, if_false]
        have hlt : n / 10 < n := by omega
        rw [ih fuel (by omega) (n / 10) _ (by omega)]
        cases n with
        | zero => simp at h0
        | succ n =>
          rw [ih (n + 1) (by omega) ((n + 1) / 10) _ (by omega)]
          simp

theorem toDigits_lt_ten (d : Nat) (h : d < 10) : Nat.toDigits 10 d = [Nat.digitChar d] := by
  unfold Nat.toDigits
  simp only [Nat.toDigitsCore]
  have : d / 10 = 0 := by omega
  have h2 : d % 10 = d := by omega
  simp [this, h2]

theorem toDigits_step (n d : Nat) (hn : 0 < n) (hd : d < 10) :
    Nat.toDigits 10 (n * 10 + d) = Nat.toDigits 10 n ++ [Nat.digitChar d] := by
  have h1 : (n * 10 + d) / 10 = n := by omega
  have h2 : (n * 10 + d) % 10 = d := by omega
  conv_lhs => unfold Nat.toDigits
  simp only [Nat.toDigitsCore, h1, h2]
  have : n ≠ 0 := by omega
  simp only [this, if_false]
  exact toDigitsCore_append _ _ _ (by omega)

theorem digitChar_of_digit (c : Char) (h : '0' ≤ c ∧ c ≤ '9') :
    Nat.digitChar (c.toNat - '0'.toNat) = c := by
  obtain ⟨h1, h2⟩ := h
  have h1' : 48 ≤ c.toNat := h1
  have h2' : c.toNat ≤ 57 := h2
  have hc : Char.ofNat c.toNat = c := Char.ofNat_toNat c
  generalize c.toNat = k at *
  subst hc
  interval_cases k <;> rfl

theorem digit_toNat (c : Char) (h : '0' ≤ c ∧ c ≤ '9') :
    c.toNat - '0'.toNat < 10 ∧ (c.toNat - '0'.toNat = 0 ↔ c = '0') := by
  obtain ⟨h1, h2⟩ := h
  have h1' : 48 ≤ c.toNat := h1
  have h2' : c.toNat ≤ 57 := h2
  have hc : Char.ofNat c.toNat = c := Char.ofNat_toNat c
  have h0 : ('0' : Char).toNat = 48 := rfl
  refine ⟨by omega, ?_, ?_⟩
  · intro h
    have : c.toNat = 48 := by omega
    rw [← hc, this]
  · rintro rfl; rfl

theorem parseUintLoop_digits (s0 : String) : ∀ (cs : List Char) (n v : Nat), 0 < n →
    parseUintLoop s0 cs n = .ok v → Nat.toDigits 10 v = Nat.toDigits 10 n ++ cs := by
  intro cs
  induction cs with
  | nil => intro n v _ h; simp [parseUintLoop] at h; simp [h]
  | cons c cs ih =>
    intro n v hn h
    simp only [parseUintLoop] at h
    split at h
    · rename_i hc
      split at h
      · simp at h
      · split at h
        · simp at h
        · have := ih _ v (by omega) h
          rw [this, toDigits_step n _ hn (digit_toNat c hc).1, digitChar_of_digit c hc]
          simp
    · simp at h

/-- Writing back the value of a numeral without leading zeros gives the numeral. -/
theorem ParseUint_roundtrip (t : String) (v : Nat) (h : ParseUint t = .ok v)
    (hc : NoLeadingZero t) : FormatUint v = t := by
  unfold ParseUint at h
  split at h
  · simp at h
  · obtain ⟨cs⟩ := t
    simp only [FormatUint, Nat.repr, List.asString]
    congr 1
    simp only at h
    cases cs with
    | nil => simp [parseUintLoop] at h; rename_i h'; exact absurd rfl h'
    | cons c cs =>
      simp only [parseUintLoop] at h
      split at h
      · rename_i hd
        split at h
        · simp at h
        · split at h
          · simp at h
          · simp only [Nat.zero_mul, Nat.zero_add] at h
            by_cases hz : c = '0'
            · subst hz
              rcases hc with hc | hc
              · have : cs = [] := by
                  have := congrArg String.data hc
                  simpa using this
                subst this
                simp [parseUintLoop] at h
                subst h; rfl
              · simp at hc
            · have hpos : 0 < c.toNat - '0'.toNat := by
                have hiff := (digit_toNat c hd).2
                by_contra hcon
                exact hz (hiff.mp (by omega))
              rw [parseUintLoop_digits _ cs _ v hpos h, toDigits_lt_ten _ (digit_toNat c hd).1,
                digitChar_of_digit c hd]
              simp
      · simp at h

/-- Writing back a channel id below `2 ^ 63` gives the numeral it was read from. -/
theorem Itoa_roundtrip (t : String) (v : Nat) (h : ParseUint t = .ok v)
    (hc : NoLeadingZero t) (hv : v < 2 ^ 63) : Itoa (toInt v) = t := by
  rw [toInt_of_lt hv]
  unfold Itoa
  have hn : ¬ ((v : Int) < 0) := by omega
  simp only [hn, if_false, Int.natAbs_ofNat]
  exact ParseUint_roundtrip t v h hc

/-! ## Row decoders: lemmas -/

theorem NoPanic.bind {α β : Type} {x : Except Fault α} {f : α → Except Fault β}
    (hx : NoPanic x) (hf : ∀ a, NoPanic (f a)) : NoPanic (x >>= f) := by
  intro m
  cases x with
  | error e =>
    intro h
    have he : e = .runtimePanic m := by simpa [Bind.bind, Except.bind] using h
    exact hx m (by rw [he])
  | ok a => exact hf a m

theorem NoPanic.liftE {α : Type} (e : Except Error α) : NoPanic (liftE e) := by
  intro m; cases e <;> simp [Arris.liftE]

theorem NoPanic.pure {α : Type} (a : α) : NoPanic (pure a : Except Fault α) := by
  intro m; simp [Pure.pure, Except.pure]

theorem NoPanic.err {α : Type} (e : Error) : NoPanic (.error (.err e) : Except Fault α) := by
  intro m; simp

theorem length_nine {α : Type} {r : List α} (h : r.length = 9) :
    ∃ t0 t1 t2 t3 t4 t5 t6 t7 t8, r = [t0, t1, t2, t3, t4, t5, t6, t7, t8] := by
  rcases r with _ | ⟨t0, _ | ⟨t1, _ | ⟨t2, _ | ⟨t3, _ | ⟨t4, _ | ⟨t5, _ | ⟨t6, _ | ⟨t7, _ |
    ⟨t8, _ | ⟨t9, r⟩⟩⟩⟩⟩⟩⟩⟩⟩⟩ <;> simp at h
  exact ⟨t0, t1, t2, t3, t4, t5, t6, t7, t8, rfl⟩

theorem length_seven {α : Type} {r : List α} (h : r.length = 7) :
    ∃ t0 t1 t2 t3 t4 t5 t6, r = [t0, t1, t2, t3, t4, t5, t6] := by
  rcases r with _ | ⟨t0, _ | ⟨t1, _ | ⟨t2, _ | ⟨t3, _ | ⟨t4, _ | ⟨t5, _ | ⟨t6, _ | ⟨t7, r⟩⟩⟩⟩⟩⟩⟩⟩ <;>
    simp at h
  exact ⟨t0, t1, t2, t3, t4, t5, t6, rfl⟩

theorem length_five {α : Type} {r : List α} (h : r.length = 5) :
    ∃ t0 t1 t2 t3 t4, r = [t0, t1, t2, t3, t4] := by
  rcases r with _ | ⟨t0, _ | ⟨t1, _ | ⟨t2, _ | ⟨t3, _ | ⟨t4, _ | ⟨t5, r⟩⟩⟩⟩⟩⟩ <;> simp at h
  exact ⟨t0, t1, t2, t3, t4, rfl⟩

theorem downstreamRow_wrong_length (L : Lib) (r : List String) (h : r.length ≠ 9) :
    downstreamRow L r =
      .error (.err (.text "arris: incorrect number of row elements for downstream")) := by
  simp [downstreamRow, h, throw, throwThe, MonadExceptOf.throw, bind, Except.bind]

theorem upstreamRow_wrong_length (L : Lib) (r : List String) (h : r.length ≠ 7) :
    upstreamRow L r =
      .error (.err (.text "arris: incorrect number of row elements for upstream")) := by
  simp [upstreamRow, h, throw, throwThe, MonadExceptOf.throw, bind, Except.bind]

theorem interfaceRow_wrong_length (L : Lib) (r : List String) (h : r.length ≠ 5) :
    interfaceRow L r =
      .error (.err (.text "arris: incorrect number of row elements for interface")) := by
  simp [interfaceRow, h, throw, throwThe, MonadExceptOf.throw, bind, Except.bind]

/-- The steps of `parseDownstream` on a row of 9 tokens. -/
theorem downstreamRow_nine (L : Lib) (t0 t1 t2 t3 t4 t5 t6 t7 t8 : String) :
    downstreamRow L [t0, t1, t2, t3, t4, t5, t6, t7, t8] =
      (do
        let v1 ← liftE (ParseUint t1)
        let v6 ← liftE (ParseUint t6)
        let v7 ← liftE (ParseUint t7)
        let v8 ← liftE (ParseUint t8)
        let f2 ← downstreamFloat L t2
        let f3 ← downstreamFloat L t3
        let f4 ← downstreamFloat L t4
        pure { Name := t0, DCID := toInt v1, Frequency := f2, Power := f3, SNR := f4,
               Modulation := t5, Octets := v6, Corrected := v7, Uncorrectable := v8 }) := by
  simp only [downstreamRow, downstreamFloat, index, List.mapM, List.mapM.loop, bind, Except.bind,
    pure, Except.pure, throw, throwThe, MonadExceptOf.throw, List.length_cons, List.length_nil]
  simp
  cases ParseUint t1 <;> cases ParseUint t6 <;> cases ParseUint t7 <;> cases ParseUint t8 <;>
    simp [liftE]
  rcases Fields t2 with _ | ⟨a, _ | ⟨b, _ | ⟨c, l⟩⟩⟩ <;> simp
  cases L.ParseFloat a <;> simp [liftE]
  rcases Fields t3 with _ | ⟨a, _ | ⟨b, _ | ⟨c, l⟩⟩⟩ <;> simp
  cases L.ParseFloat a <;> simp [liftE]
  rcases Fields t4 with _ | ⟨a, _ | ⟨b, _ | ⟨c, l⟩⟩⟩ <;> simp
  cases L.ParseFloat a <;> simp [liftE]

/-- The steps of `parseUpstream` on a row of 7 tokens. -/
theorem upstreamRow_seven (L : Lib) (t0 t1 t2 t3 t4 t5 t6 : String) :
    upstreamRow L [t0, t1, t2, t3, t4, t5, t6] =
      (do
        let ucid ← liftE (ParseUint t1)
        let f2 ← upstreamFloat L t2
        let f3 ← upstreamFloat L t3
        let f5 ← upstreamFloat L t5
        pure { Name := t0, UCID := toInt ucid, Frequency := f2, Power := f3, ChannelType := t4,
               SymbolRate := L.floatToInt f5, Modulation := t6 }) := by
  simp only [upstreamRow, upstreamFloat, index, List.mapM, List.mapM.loop, bind, Except.bind,
    pure, Except.pure, throw, throwThe, MonadExceptOf.throw, List.length_cons, List.length_nil]
  simp
  cases ParseUint t1 <;> simp [liftE]
  rcases Fields t2 with _ | ⟨a, _ | ⟨b, _ | ⟨c, l⟩⟩⟩ <;> simp
  cases L.ParseFloat (if a = "----" then "0.0" else a) <;> simp [liftE]
  rcases Fields t3 with _ | ⟨a, _ | ⟨b, _ | ⟨c, l⟩⟩⟩ <;> simp
  cases L.ParseFloat (if a = "----" then "0.0" else a) <;> simp [liftE]
  rcases Fields t5 with _ | ⟨a, _ | ⟨b, _ | ⟨c, l⟩⟩⟩ <;> simp
  cases L.ParseFloat (if a = "----" then "0.0" else a) <;> simp [liftE]

/-- The steps of `parseInterfaces` on a row of 5 tokens. -/
theorem interfaceRow_five (L : Lib) (t0 t1 t2 t3 t4 : String) :
    interfaceRow L [t0, t1, t2, t3, t4] =
      (do
        let mac ← liftE (L.ParseMAC t4)
        pure { Name := t0, Provisioned := t1 == "Enabled", Up := t2 == "Up",
               Speed := if t3 = "-----" then "n/a" else t3, MAC := mac }) := by
  simp only [interfaceRow, index, bind, Except.bind,
    pure, Except.pure, throw, throwThe, MonadExceptOf.throw, List.length_cons, List.length_nil]
  simp

theorem downstreamFloat_noPanic (L : Lib) (t : String) : NoPanic (downstreamFloat L t) := by
  unfold downstreamFloat
  split
  · exact NoPanic.liftE _
  · exact NoPanic.err _

theorem upstreamFloat_noPanic (L : Lib) (t : String) : NoPanic (upstreamFloat L t) := by
  unfold upstreamFloat
  split
  · exact NoPanic.liftE _
  · exact NoPanic.err _

/-- The downstream row decoder returns a record or an error; it never panics. -/
theorem downstreamRow_noPanic (L : Lib) (r : List String) : NoPanic (downstreamRow L r) := by
  by_cases h : r.length = 9
  · obtain ⟨t0, t1, t2, t3, t4, t5, t6, t7, t8, rfl⟩ := length_nine h
    rw [downstreamRow_nine]
    refine NoPanic.bind (NoPanic.liftE _) fun _ => ?_
    refine NoPanic.bind (NoPanic.liftE _) fun _ => ?_
    refine NoPanic.bind (NoPanic.liftE _) fun _ => ?_
    refine NoPanic.bind (NoPanic.liftE _) fun _ => ?_
    refine NoPanic.bind (downstreamFloat_noPanic _ _) fun _ => ?_
    refine NoPanic.bind (downstreamFloat_noPanic _ _) fun _ => ?_
    refine NoPanic.bind (downstreamFloat_noPanic _ _) fun _ => ?_
    exact NoPanic.pure _
  · rw [downstreamRow_wrong_length L r h]
    exact NoPanic.err _

/-- The upstream row decoder returns a record or an error; it never panics. -/
theorem upstreamRow_noPanic (L : Lib) (r : List String) : NoPanic (upstreamRow L r) := by
  by_cases h : r.length = 7
  · obtain ⟨t0, t1, t2, t3, t4, t5, t6, rfl⟩ := length_seven h
    rw [upstreamRow_seven]
    refine NoPanic.bind (NoPanic.liftE _) fun _ => ?_
    refine NoPanic.bind (upstreamFloat_noPanic _ _) fun _ => ?_
    refine NoPanic.bind (upstreamFloat_noPanic _ _) fun _ => ?_
    refine NoPanic.bind (upstreamFloat_noPanic _ _) fun _ => ?_
    exact NoPanic.pure _
  · rw [upstreamRow_wrong_length L r h]
    exact NoPanic.err _

/-- The interface row decoder returns a record or an error; it never panics. -/
theorem interfaceRow_noPanic (L : Lib) (r : List String) : NoPanic (interfaceRow L r) := by
  by_cases h : r.length = 5
  · obtain ⟨t0, t1, t2, t3, t4, rfl⟩ := length_five h
    rw [interfaceRow_five]
    refine NoPanic.bind (NoPanic.liftE _) fun _ => ?_
    exact NoPanic.pure _
  · rw [interfaceRow_wrong_length L r h]
    exact NoPanic.err _

theorem downstreamRow_length (L : Lib) (r : List String) (d : Downstream)
    (h : downstreamRow L r = .ok d) : r.length = 9 := by
  by_contra hn
  rw [downstreamRow_wrong_length L r hn] at h
  cases h

theorem upstreamRow_length (L : Lib) (r : List String) (u : Upstream)
    (h : upstreamRow L r = .ok u) : r.length = 7 := by
  by_contra hn
  rw [upstreamRow_wrong_length L r hn] at h
  cases h

theorem interfaceRow_length (L : Lib) (r : List String) (i : Interface)
    (h : interfaceRow L r = .ok i) : r.length = 5 := by
  by_contra hn
  rw [interfaceRow_wrong_length L r hn] at h
  cases h

/-- A well-formed downstream row decodes to the record it stands for. -/
theorem downstreamRow_of_wellFormed (L : Lib) (r : List String) (d : Downstream)
    (h : WellFormedDownstream L r d) : downstreamRow L r = .ok d := by
  obtain ⟨t0, t1, t2, t3, t4, t5, t6, t7, t8, v1, v6, v7, v8, n2, u2, n3, u3, n4, u4, f2, f3, f4,
    rfl, h1, h6, h7, h8, hf2, hp2, hf3, hp3, hf4, hp4, rfl⟩ := h
  rw [downstreamRow_nine]
  simp only [downstreamFloat, h1, h6, h7, h8, hf2, hp2, hf3, hp3, hf4, hp4, liftE, bind,
    Except.bind, pure, Except.pure]

/-! ## Row loops: lemmas -/

theorem parseDownstream_eq (L : Lib) (s : Status) (rows : List (List String)) :
    s.parseDownstream L rows =
      ({ s with Downstream := s.Downstream ++ (decodeRows (downstreamRow L) rows).1 },
        (decodeRows (downstreamRow L) rows).2) := by
  induction rows generalizing s with
  | nil => simp [Status.parseDownstream, decodeRows]
  | cons r rows ih =>
    simp only [Status.parseDownstream, decodeRows]
    cases h : downstreamRow L r with
    | error e => simp
    | ok d => simp [ih]

theorem parseUpstream_eq (L : Lib) (s : Status) (rows : List (List String)) :
    s.parseUpstream L rows =
      ({ s with Upstream := s.Upstream ++ (decodeRows (upstreamRow L) rows).1 },
        (decodeRows (upstreamRow L) rows).2) := by
  induction rows generalizing s with
  | nil => simp [Status.parseUpstream, decodeRows]
  | cons r rows ih =>
    simp only [Status.parseUpstream, decodeRows]
    cases h : upstreamRow L r with
    | error e => simp
    | ok d => simp [ih]

theorem parseInterfaces_eq (L : Lib) (s : Status) (rows : List (List String)) :
    s.parseInterfaces L rows =
      ({ s with Interfaces := s.Interfaces ++ (decodeRows (interfaceRow L) rows).1 },
        (decodeRows (interfaceRow L) rows).2) := by
  induction rows generalizing s with
  | nil => simp [Status.parseInterfaces, decodeRows]
  | cons r rows ih =>
    simp only [Status.parseInterfaces, decodeRows]
    cases h : interfaceRow L r with
    | error e => simp
    | ok d => simp [ih]

theorem decodeRows_of_forall₂ {α : Type} (f : List String → Except Fault α)
    {rows : List (List String)} {recs : List α}
    (h : List.Forall₂ (fun r a => f r = .ok a) rows recs) : decodeRows f rows = (recs, none) := by
  induction h with
  | nil => rfl
  | cons h _ ih => simp [decodeRows, h, ih]

theorem decodeRows_take {α : Type} (f : List String → Except Fault α)
    (rows : List (List String)) :
    List.Forall₂ (fun r a => f r = .ok a)
      (rows.take (decodeRows f rows).1.length) (decodeRows f rows).1 := by
  induction rows with
  | nil => simp [decodeRows]
  | cons r rows ih =>
    simp only [decodeRows]
    cases h : f r with
    | error e => simp
    | ok d => simpa using ⟨h, ih⟩

theorem decodeRows_fails {α : Type} (f : List String → Except Fault α)
    (rows : List (List String)) (hnp : ∀ r, NoPanic (f r))
    (h : ∃ r ∈ rows, ∀ a, f r ≠ .ok a) : isError (decodeRows f rows).2 = true := by
  induction rows with
  | nil => simp at h
  | cons r rows ih =>
    simp only [decodeRows]
    cases hr : f r with
    | error e =>
      cases e with
      | err e => rfl
      | runtimePanic m => exact absurd hr (hnp r m)
    | ok d =>
      obtain ⟨r', hmem, hr'⟩ := h
      rcases List.mem_cons.mp hmem with rfl | hmem
      · exact absurd hr (hr' d)
      · exact ih ⟨r', hmem, hr'⟩

/-! ## Row extraction: lemmas -/

mutual
/-- The walk of `parseTableRow` appends the tokens of the descendants, each
    after its own descendants. -/
theorem parseTableRow_walk_eq : ∀ (n : Node) (out : List String),
    parseTableRow.walk out n = out ++ n.descendants.filterMap tokenOf
  | .mk _ _ cs, out => by
    simp only [parseTableRow.walk, Node.descendants]
    exact parseTableRow_walkChildren_eq cs out
/-- The same for the loop over a list of siblings. -/
theorem parseTableRow_walkChildren_eq : ∀ (cs : List Node) (out : List String),
    parseTableRow.walkChildren out cs = out ++ (descendantsOfList cs).filterMap tokenOf
  | [], out => by simp [parseTableRow.walkChildren, descendantsOfList]
  | c :: rest, out => by
    simp only [parseTableRow.walkChildren, descendantsOfList]
    rw [parseTableRow_walk_eq c out]
    by_cases h : TrimSpace c.Data = "" ∨ TrimSpace c.Data = "b" ∨ TrimSpace c.Data = "font" ∨
        TrimSpace c.Data = "td"
    · rw [if_pos h, parseTableRow_walkChildren_eq rest _]
      simp [List.filterMap_append, List.filterMap_cons, tokenOf, h]
    · rw [if_neg h, parseTableRow_walkChildren_eq rest _]
      simp [List.filterMap_append, List.filterMap_cons, tokenOf, h]
end

theorem dropWhile_head_not {α : Type} (p : α → Bool) (l : List α) (c : α)
    (h : (l.dropWhile p).head? = some c) : p c = false := by
  induction l with
  | nil => simp at h
  | cons x xs ih =>
    simp only [List.dropWhile_cons] at h
    split at h
    · exact ih h
    · simp at h; subst h; simpa using ‹¬ p x = true›

/-- The result of `strings.TrimSpace` neither starts nor ends with white space. -/
theorem TrimSpace_trimmed (s : String) : Trimmed (TrimSpace s) := by
  unfold Trimmed TrimSpace
  simp only
  set l := s.data.dropWhile isSpace with hl
  constructor
  · intro c hc
    have hsplit : l = (l.reverse.dropWhile isSpace).reverse ++ (l.reverse.takeWhile isSpace).reverse := by
      rw [← List.reverse_append, List.takeWhile_append_dropWhile, List.reverse_reverse]
    have hne : (l.reverse.dropWhile isSpace).reverse ≠ [] := by
      intro h; rw [h] at hc; simp at hc
    have : l.head? = some c := by
      rw [hsplit, List.head?_append_of_ne_nil _ hne]; exact hc
    exact dropWhile_head_not isSpace s.data c (hl ▸ this)
  · intro c hc
    rw [List.getLast?_reverse] at hc
    exact dropWhile_head_not isSpace l.reverse c hc

/-- Every token of a row is non-empty and trimmed. -/
theorem tokenOf_trimmed (n : Node) (t : String) (h : tokenOf n = some t) :
    t ≠ "" ∧ Trimmed t := by
  unfold tokenOf at h
  simp only at h
  split at h
  · cases h
  · rename_i hn
    simp only [Option.some.injEq] at h
    subst h
    exact ⟨fun h0 => hn (Or.inl h0), TrimSpace_trimmed _⟩

mutual
/-- The walk of `walkTBody` only appends rows that have a token. -/
theorem walkTBody_walk_nonempty : ∀ (n : Node) (rows : List (List String)),
    (∀ r ∈ rows, r ≠ []) → ∀ r ∈ walkTBody.walk rows n, r ≠ []
  | .mk _ _ cs, rows, h => by
    simp only [walkTBody.walk]
    exact walkTBody_walkChildren_nonempty cs rows h
/-- The same for the loop over a list of siblings. -/
theorem walkTBody_walkChildren_nonempty : ∀ (cs : List Node) (rows : List (List String)),
    (∀ r ∈ rows, r ≠ []) → ∀ r ∈ walkTBody.walkChildren rows cs, r ≠ []
  | [], rows, h => by simpa [walkTBody.walkChildren] using h
  | c :: rest, rows, h => by
    simp only [walkTBody.walkChildren]
    have h1 := walkTBody_walk_nonempty c rows h
    split
    · exact walkTBody_walkChildren_nonempty rest _ h1
    · split
      · exact walkTBody_walkChildren_nonempty rest _ h1
      · rename_i hlen
        apply walkTBody_walkChildren_nonempty rest
        intro r hr
        rcases List.mem_append.mp hr with hr | hr
        · exact h1 r hr
        · simp only [List.mem_singleton] at hr
          subst hr
          intro h0
          exact hlen (by rw [h0]; rfl)
end

theorem decodeGroups_append (L : Lib) (s : Status) (a b : List (List (List String))) :
    decodeGroups L s (a ++ b) =
      match decodeGroups L s a with
      | (s1, some f) => (s1, some f)
      | (s1, none) => decodeGroups L s1 b := by
  induction a generalizing s with
  | nil => simp [decodeGroups]
  | cons g gs ih =>
    simp only [List.cons_append, decodeGroups]
    rcases hp : s.parse L g with ⟨s1, _ | f⟩
    · exact ih s1
    · simp

theorem decodeGroups_append_none (L : Lib) (s : Status) (a b : List (List (List String)))
    (h : (decodeGroups L s (a ++ b)).2 = none) :
    (decodeGroups L s a).2 = none ∧
      decodeGroups L s (a ++ b) = decodeGroups L (decodeGroups L s a).1 b := by
  rw [decodeGroups_append] at h ⊢
  rcases hd : decodeGroups L s a with ⟨s1, _ | f⟩
  · simp
  · rw [hd] at h; simp at h

theorem groupsOf_append (a b : List Node) : groupsOf (a ++ b) = groupsOf a ++ groupsOf b := by
  simp [groupsOf]

theorem groupsOf_cons (c : Node) (l : List Node) :
    groupsOf (c :: l) = if c.Data = "tbody" then walkTBody c :: groupsOf l else groupsOf l := by
  by_cases h : c.Data = "tbody" <;> simp [groupsOf, List.filter_cons, h]

mutual
/-- When no group fails, the walk of `Parse` decodes the groups of the `tbody`
    descendants, each after the groups of its own descendants. -/
theorem Parse_walk_eq (L : Lib) : ∀ (n : Node) (s : Status),
    (decodeGroups L s (groupsOf n.descendants)).2 = none →
    Parse.walk L s n = decodeGroups L s (groupsOf n.descendants)
  | .mk _ _ cs, s, h => by
    simp only [Parse.walk, Node.descendants] at h ⊢
    exact Parse_walkChildren_eq L cs s h
/-- The same for the loop over a list of siblings. -/
theorem Parse_walkChildren_eq (L : Lib) : ∀ (cs : List Node) (s : Status),
    (decodeGroups L s (groupsOf (descendantsOfList cs))).2 = none →
    Parse.walkChildren L s cs = decodeGroups L s (groupsOf (descendantsOfList cs))
  | [], s, _ => by simp [Parse.walkChildren, descendantsOfList, groupsOf, decodeGroups]
  | c :: rest, s, h => by
    simp only [descendantsOfList, groupsOf_append] at h ⊢
    obtain ⟨h1, h2⟩ := decodeGroups_append_none L s _ _ h
    rw [h2] at h ⊢
    have ihc := Parse_walk_eq L c s h1
    simp only [Parse.walkChildren]
    rw [ihc]
    rcases hd : decodeGroups L s (groupsOf c.descendants) with ⟨s1, o⟩
    rw [hd] at h1 h
    simp only at h1
    subst h1
    simp only at h ⊢
    rw [groupsOf_cons] at h ⊢
    by_cases ht : c.Data = "tbody"
    · simp only [ht, ne_eq, not_true_eq_false, if_false, if_true, decodeGroups] at h ⊢
      rcases hp : s1.parse L (walkTBody c) with ⟨s2, _ | f⟩
      · rw [hp] at h
        simp only at h ⊢
        exact Parse_walkChildren_eq L rest s2 h
      · rw [hp] at h
    · simp only [ht, ne_eq, not_false_eq_true, if_true, if_false] at h ⊢
      exact Parse_walkChildren_eq L rest s1 h
end

/-! ## The claims -/

/-- C1 (code bug): a failure in a `tbody` that is not a child of the root is
    dropped. The group `failingGroup` fails to decode, yet `Parse` returns a
    `Status` and no error for the document that holds it, and that `Status` has
    the uptime decoded before the failing group, the record decoded from the
    failing group before its bad row, and the interface decoded after it. -/
theorem Parse_drops_nested_failure :
    isError (Status.parse refLib {} (walkTBody failingGroup)).2 = true ∧
    Parse refLib exampleDocument = .ok
      { Downstream := [recordCH1],
        Uptime := 3075 * Minute,
        Interfaces := [{ Name := "LAN", Provisioned := true, Up := true, Speed := "1000(Full)",
                         MAC := [0, 29, 208, 170, 187, 204] }] } :=
  ⟨by rfl, by rfl⟩

/-- C2 (counterexample): the channel id is not always the value of token 1. The
    token `18446744073709551615` is an unsigned decimal integer, and the record
    decoded from the row has channel id `-1`. -/
theorem parse_downstream_dcid_wraps :
    ParseUint "18446744073709551615" = .ok 18446744073709551615 ∧
    Status.parse refLib {} [["DCID"], ["CH1", "18446744073709551615", "591.0 MHz", "2.1 dBmV",
      "38.5 dB", "QAM256", "123456", "10", "0"]]
      = ({ Downstream := [{ recordCH1 with DCID := -1 }] }, none) :=
  ⟨by rfl, by rfl⟩

/-- C2 (amended): for a group whose first row starts with `DCID` and whose
    remaining rows are well formed, `Status.parse` returns no error and appends
    one record per data row, in row order, skipping the header row; each record
    is the one `WellFormedDownstream` describes, whose channel id is the value of
    token 1 converted to `int`, which is that value whenever it is below
    `2 ^ 63`. -/
theorem parse_downstream_group (L : Lib) (s : Status) (toks : List String)
    (data : List (List String)) (recs : List Downstream)
    (h : List.Forall₂ (WellFormedDownstream L) data recs) :
    s.parse L (("DCID" :: toks) :: data)
      = ({ s with Downstream := s.Downstream ++ recs }, none) ∧
    ∀ v : Nat, v < 2 ^ 63 → toInt v = v := by
  refine ⟨?_, fun v hv => toInt_of_lt hv⟩
  have hrows : decodeRows (downstreamRow L) data = (recs, none) :=
    decodeRows_of_forall₂ _ (h.imp fun r d hw => downstreamRow_of_wellFormed L r d hw)
  simp only [Status.parse, if_true, parseDownstream_eq, hrows]

/-- C2 (witness): the row of the end-to-end example gives the record `CH1`. -/
theorem parse_downstream_group_witness :
    List.Forall₂ (WellFormedDownstream refLib) [rowCH1] [recordCH1] ∧
    Status.parse refLib {} [["DCID"], rowCH1] = ({ Downstream := [recordCH1] }, none) :=
  have h : List.Forall₂ (WellFormedDownstream refLib) [rowCH1] [recordCH1] :=
    List.Forall₂.cons
      ⟨"CH1", "1", "591.0 MHz", "2.1 dBmV", "38.5 dB", "QAM256", "123456", "10", "0",
        1, 123456, 10, 0, "591.0", "MHz", "2.1", "dBmV", "38.5", "dB",
        ⟨0x4082780000000000⟩, ⟨0x4000CCCCCCCCCCCD⟩, ⟨0x4043400000000000⟩,
        rfl, rfl, rfl, rfl, rfl, rfl, rfl, rfl, rfl, rfl, rfl, rfl⟩
      List.Forall₂.nil
  ⟨h, (parse_downstream_group refLib {} [] [rowCH1] [recordCH1] h).1⟩

/-- C3 (counterexample): a group that is only a recognised header row is
    accepted: `Status.parse` returns no error. -/
theorem parse_header_only_succeeds :
    Status.parse refLib {} [["DCID"]] = ({}, none) ∧
    Status.parse refLib {} [["UCID"]] = ({}, none) ∧
    Status.parse refLib {} [["Interface Name"]] = ({}, none) :=
  ⟨by rfl, by rfl, by rfl⟩

/-- C3 (amended): for a group that consists only of a header row whose first
    token is `DCID`, `UCID` or `Interface Name`, `Status.parse` returns no error
    and leaves the `Status` unchanged. -/
theorem parse_header_only (L : Lib) (s : Status) (first : String) (toks : List String)
    (h : first = "DCID" ∨ first = "UCID" ∨ first = "Interface Name") :
    s.parse L [first :: toks] = (s, none) := by
  rcases h with rfl | rfl | rfl <;> rfl

/-- C3 (witness): the header row of an upstream table on its own. -/
theorem parse_header_only_witness :
    ("UCID" = "DCID" ∨ "UCID" = "UCID" ∨ "UCID" = "Interface Name") ∧
    Status.parse refLib { Uptime := 7 } ["UCID" :: ["Freq", "Power"]] = ({ Uptime := 7 }, none) :=
  ⟨Or.inr (Or.inl rfl),
    parse_header_only refLib { Uptime := 7 } "UCID" ["Freq", "Power"] (Or.inr (Or.inl rfl))⟩

/-- C4 (code bug): an uptime row whose second token has fewer than 5 fields is
    not rejected with an error: `parseUptime` indexes the fields without a
    length check and panics, on `5 d` after reading field 0 and on the empty
    string at once, also when reached through `Status.parse`. -/
theorem parseUptime_short_fields_panic (s : Status) :
    s.parseUptime ["System Uptime:", "5 d"] = (s, some (.runtimePanic "index out of range")) ∧
    s.parseUptime ["System Uptime:", ""] = (s, some (.runtimePanic "index out of range")) ∧
    s.parse refLib [["System Uptime:", "5 d"]]
      = (s, some (.runtimePanic "index out of range")) :=
  ⟨by rfl, by rfl, by rfl⟩

/-- C5: for a group that has no rows, or whose first row has no tokens,
    `Status.parse` returns an error and leaves the `Status` unchanged. -/
theorem parse_without_first_token (L : Lib) (s : Status) (rows : List (List String))
    (h : rows = [] ∨ ∃ rest, rows = [] :: rest) :
    isError (s.parse L rows).2 = true ∧ (s.parse L rows).1 = s := by
  rcases h with rfl | ⟨rest, rfl⟩ <;> exact ⟨rfl, rfl⟩

/-- C5 (witness): a group whose first row is empty. -/
theorem parse_without_first_token_witness :
    (([[], ["DCID"]] : List (List String)) = [] ∨
      ∃ rest, ([[], ["DCID"]] : List (List String)) = [] :: rest) ∧
    isError (Status.parse refLib { Uptime := 5 } [[], ["DCID"]]).2 = true ∧
    (Status.parse refLib { Uptime := 5 } [[], ["DCID"]]).1 = { Uptime := 5 } :=
  ⟨Or.inr ⟨_, rfl⟩,
    parse_without_first_token refLib { Uptime := 5 } [[], ["DCID"]] (Or.inr ⟨_, rfl⟩)⟩

/-- C6: for a group whose first token is none of `DCID`, `UCID`,
    `System Uptime:`, `Interface Name`, `Status.parse` returns no error and
    leaves the `Status` unchanged, whatever the other tokens and rows are. -/
theorem parse_unrecognized_header (L : Lib) (s : Status) (first : String)
    (toks : List String) (rest : List (List String))
    (h : first ≠ "DCID" ∧ first ≠ "UCID" ∧ first ≠ "System Uptime:" ∧
      first ≠ "Interface Name") :
    s.parse L ((first :: toks) :: rest) = (s, none) := by
  obtain ⟨h1, h2, h3, h4⟩ := h
  simp only [Status.parse, h1, h2, h3, h4, if_false]

/-- C6 (witness): the header `dcid`, in another casing, followed by a row that
    no decoder would accept. -/
theorem parse_unrecognized_header_witness :
    ("dcid" ≠ "DCID" ∧ "dcid" ≠ "UCID" ∧ "dcid" ≠ "System Uptime:" ∧
      "dcid" ≠ "Interface Name") ∧
    Status.parse refLib { Uptime := 5 } (("dcid" :: ["x"]) :: [["y"]]) = ({ Uptime := 5 }, none) :=
  ⟨by decide,
    parse_unrecognized_header refLib { Uptime := 5 } "dcid" ["x"] [["y"]] (by decide)⟩

/-- What a row loop leaves behind: the records of the rows before the first
    failure, each built from a row that decodes. -/
theorem decodeRows_built {α : Type} (f : List String → Except Fault α) (n : Nat)
    (hlen : ∀ r a, f r = .ok a → r.length = n) (rows : List (List String)) :
    List.Forall₂ (fun r a => r.length = n ∧ f r = .ok a)
      (rows.take (decodeRows f rows).1.length) (decodeRows f rows).1 :=
  (decodeRows_take f rows).imp fun r a h => ⟨hlen r a h, h⟩

/-- C7: each row loop returns an error when some row has the wrong number of
    tokens (9 downstream, 7 upstream, 5 interface), and the records it has
    appended by then are built, in order, from the rows before the first
    failure, each of the right length: no record comes from a row of the wrong
    length. -/
theorem rows_of_wrong_length_rejected (L : Lib) (s : Status) (rows : List (List String)) :
    ((∃ r ∈ rows, r.length ≠ 9) → isError (s.parseDownstream L rows).2 = true) ∧
    ((∃ r ∈ rows, r.length ≠ 7) → isError (s.parseUpstream L rows).2 = true) ∧
    ((∃ r ∈ rows, r.length ≠ 5) → isError (s.parseInterfaces L rows).2 = true) ∧
    (∃ ds, (s.parseDownstream L rows).1 = { s with Downstream := s.Downstream ++ ds } ∧
      List.Forall₂ (fun r d => r.length = 9 ∧ downstreamRow L r = .ok d)
        (rows.take ds.length) ds) ∧
    (∃ us, (s.parseUpstream L rows).1 = { s with Upstream := s.Upstream ++ us } ∧
      List.Forall₂ (fun r u => r.length = 7 ∧ upstreamRow L r = .ok u)
        (rows.take us.length) us) ∧
    (∃ is, (s.parseInterfaces L rows).1 = { s with Interfaces := s.Interfaces ++ is } ∧
      List.Forall₂ (fun r i => r.length = 5 ∧ interfaceRow L r = .ok i)
        (rows.take is.length) is) := by
  refine ⟨?_, ?_, ?_, ?_, ?_, ?_⟩
  · rintro ⟨r, hr, hlen⟩
    rw [parseDownstream_eq]
    exact decodeRows_fails _ rows (downstreamRow_noPanic L)
      ⟨r, hr, fun a ha => hlen (downstreamRow_length L r a ha)⟩
  · rintro ⟨r, hr, hlen⟩
    rw [parseUpstream_eq]
    exact decodeRows_fails _ rows (upstreamRow_noPanic L)
      ⟨r, hr, fun a ha => hlen (upstreamRow_length L r a ha)⟩
  · rintro ⟨r, hr, hlen⟩
    rw [parseInterfaces_eq]
    exact decodeRows_fails _ rows (interfaceRow_noPanic L)
      ⟨r, hr, fun a ha => hlen (interfaceRow_length L r a ha)⟩
  · exact ⟨_, by rw [parseDownstream_eq], decodeRows_built _ 9 (downstreamRow_length L) rows⟩
  · exact ⟨_, by rw [parseUpstream_eq], decodeRows_built _ 7 (upstreamRow_length L) rows⟩
  · exact ⟨_, by rw [parseInterfaces_eq], decodeRows_built _ 5 (interfaceRow_length L) rows⟩

/-- C7 (witness): a good downstream row followed by a row of 2 tokens. The row
    list has a row of the wrong length for each of the three loops, and each
    loop returns an error. -/
theorem rows_of_wrong_length_rejected_witness :
    (∃ r ∈ [rowCH1, ["CH2", "2"]], r.length ≠ 9) ∧
    (∃ r ∈ [rowCH1, ["CH2", "2"]], r.length ≠ 7) ∧
    (∃ r ∈ [rowCH1, ["CH2", "2"]], r.length ≠ 5) ∧
    isError (Status.parseDownstream refLib {} [rowCH1, ["CH2", "2"]]).2 = true ∧
    isError (Status.parseUpstream refLib {} [rowCH1, ["CH2", "2"]]).2 = true ∧
    isError (Status.parseInterfaces refLib {} [rowCH1, ["CH2", "2"]]).2 = true :=
  have h9 : ∃ r ∈ [rowCH1, ["CH2", "2"]], r.length ≠ 9 := ⟨["CH2", "2"], by simp, by decide⟩
  have h7 : ∃ r ∈ [rowCH1, ["CH2", "2"]], r.length ≠ 7 := ⟨["CH2", "2"], by simp, by decide⟩
  have h5 : ∃ r ∈ [rowCH1, ["CH2", "2"]], r.length ≠ 5 := ⟨["CH2", "2"], by simp, by decide⟩
  have h := rows_of_wrong_length_rejected refLib {} [rowCH1, ["CH2", "2"]]
  ⟨h9, h7, h5, h.1 h9, h.2.1 h7, h.2.2.1 h5⟩

/-- C8 (counterexample): the uptime `2 d: 3 h: 15 m` decodes to 3075 minutes
    (2 * 24 * 60 + 3 * 60 + 15), not to 2955 minutes. -/
theorem parseUptime_example_is_3075_minutes :
    Status.parseUptime {} ["System Uptime:", "2 d: 3 h: 15 m"]
      = ({ Uptime := 3075 * Minute }, none) ∧
    (3075 * Minute ≠ 2955 * Minute) :=
  ⟨by rfl, by unfold Minute; omega⟩

/-- C8 (amended): for a row `["System Uptime:", t]` where `t` splits on white
    space into at least 5 fields whose fields 0, 2, 4 are the unsigned decimal
    integers `d`, `h`, `m`, and the exact uptime is below `2 ^ 63` nanoseconds,
    `parseUptime` returns no error and sets `Uptime` to exactly `d` days, `h`
    hours and `m` minutes. (`2 d: 3 h: 15 m` gives 3075 minutes.) -/
theorem parseUptime_exact (s : Status) (t f0 f2 f4 : String) (d h m : Nat)
    (h0 : (Fields t)[0]? = some f0) (h2 : (Fields t)[2]? = some f2)
    (h4 : (Fields t)[4]? = some f4)
    (hd : ParseUint f0 = .ok d) (hh : ParseUint f2 = .ok h) (hm : ParseUint f4 = .ok m)
    (hlt : exactUptime d h m < 2 ^ 63) :
    s.parseUptime ["System Uptime:", t] = ({ s with Uptime := exactUptime d h m }, none) := by
  have hx : wrapInt64 (exactUptime d h m) = exactUptime d h m :=
    (wrapInt64_eq_self_iff _).mpr ⟨by have := exactUptime_nonneg d h m; omega, hlt⟩
  simp only [Status.parseUptime, uptimeOf_eq _ t f0 f2 f4 d h m h0 h2 h4 hd hh hm, hx]

/-- C8 (witness): `2 d: 3 h: 15 m` gives 3075 minutes. -/
theorem parseUptime_exact_witness :
    exactUptime 2 3 15 < 2 ^ 63 ∧
    Status.parseUptime {} ["System Uptime:", "2 d: 3 h: 15 m"]
      = ({ ({} : Status) with Uptime := exactUptime 2 3 15 }, none) ∧
    exactUptime 2 3 15 = 3075 * Minute :=
  ⟨by decide,
    parseUptime_exact {} "2 d: 3 h: 15 m" "2" "3" "15" 2 3 15 rfl rfl rfl rfl rfl rfl (by decide),
    by decide⟩

/-- C9 (counterexample): the decoder accepts 106752 days, and the stored uptime
    is negative. -/
theorem parseUptime_overflow_negative :
    Status.parseUptime {} ["System Uptime:", "106752 d: 0 h: 0 m"]
      = ({ Uptime := -9223371273709551616 }, none) ∧
    exactUptime 106752 0 0 = 9223372800000000000 :=
  ⟨by rfl, by unfold exactUptime Hour Minute; omega⟩

/-- C9 (amended): for every day, hour and minute value the uptime decoder
    accepts, the stored `Uptime` is the exact value `d * 24h + h * 1h + m * 1m`
    reduced to a signed 64-bit integer; it equals the exact value exactly when
    that is below `2 ^ 63` nanoseconds, and only then is it sure to be
    non-negative. -/
theorem parseUptime_wraps (s : Status) (first t f0 f2 f4 : String) (d h m : Nat)
    (h0 : (Fields t)[0]? = some f0) (h2 : (Fields t)[2]? = some f2)
    (h4 : (Fields t)[4]? = some f4)
    (hd : ParseUint f0 = .ok d) (hh : ParseUint f2 = .ok h) (hm : ParseUint f4 = .ok m) :
    s.parseUptime [first, t] = ({ s with Uptime := wrapInt64 (exactUptime d h m) }, none) ∧
    (wrapInt64 (exactUptime d h m) = exactUptime d h m ↔ exactUptime d h m < 2 ^ 63) := by
  constructor
  · simp only [Status.parseUptime, uptimeOf_eq _ t f0 f2 f4 d h m h0 h2 h4 hd hh hm]
  · rw [wrapInt64_eq_self_iff]
    have := exactUptime_nonneg d h m
    constructor
    · exact fun h => h.2
    · exact fun h => ⟨by omega, h⟩

/-- C9 (witness): 200000 days, more than a signed 64-bit count of nanoseconds
    can hold. -/
theorem parseUptime_wraps_witness :
    (Fields "200000 d: 1 h: 2 m")[0]? = some "200000" ∧
    ParseUint "200000" = .ok 200000 ∧
    Status.parseUptime {} ["System Uptime:", "200000 d: 1 h: 2 m"]
      = ({ ({} : Status) with Uptime := wrapInt64 (exactUptime 200000 1 2) }, none) ∧
    (wrapInt64 (exactUptime 200000 1 2) = exactUptime 200000 1 2 ↔
      exactUptime 200000 1 2 < 2 ^ 63) :=
  ⟨rfl, rfl,
    parseUptime_wraps {} "System Uptime:" "200000 d: 1 h: 2 m" "200000" "1" "2" 200000 1 2
      rfl rfl rfl rfl rfl rfl⟩

theorem bind_ok_inv {α β : Type} {x : Except Fault α} {f : α → Except Fault β} {b : β}
    (h : (x >>= f) = .ok b) : ∃ a, x = .ok a ∧ f a = .ok b := by
  cases x with
  | error e => simp [Bind.bind, Except.bind] at h
  | ok a => exact ⟨a, rfl, h⟩

theorem liftE_ok_inv {α : Type} {e : Except Error α} {a : α} (h : liftE e = .ok a) :
    e = .ok a := by
  cases e with
  | error e => simp [liftE] at h
  | ok v => simpa [liftE] using h

/-- What an accepted downstream row of 9 tokens has been decoded from. -/
theorem downstreamRow_inv (L : Lib) (t0 t1 t2 t3 t4 t5 t6 t7 t8 : String) (d : Downstream)
    (h : downstreamRow L [t0, t1, t2, t3, t4, t5, t6, t7, t8] = .ok d) :
    ∃ v1 v6 v7 v8, ParseUint t1 = .ok v1 ∧ ParseUint t6 = .ok v6 ∧ ParseUint t7 = .ok v7 ∧
      ParseUint t8 = .ok v8 ∧ d.Name = t0 ∧ d.DCID = toInt v1 ∧ d.Modulation = t5 ∧
      d.Octets = v6 ∧ d.Corrected = v7 ∧ d.Uncorrectable = v8 := by
  rw [downstreamRow_nine] at h
  obtain ⟨v1, h1, h⟩ := bind_ok_inv h
  obtain ⟨v6, h6, h⟩ := bind_ok_inv h
  obtain ⟨v7, h7, h⟩ := bind_ok_inv h
  obtain ⟨v8, h8, h⟩ := bind_ok_inv h
  obtain ⟨f2, _, h⟩ := bind_ok_inv h
  obtain ⟨f3, _, h⟩ := bind_ok_inv h
  obtain ⟨f4, _, h⟩ := bind_ok_inv h
  simp only [pure, Except.pure, Except.ok.injEq] at h
  subst h
  exact ⟨v1, v6, v7, v8, liftE_ok_inv h1, liftE_ok_inv h6, liftE_ok_inv h7, liftE_ok_inv h8,
    rfl, rfl, rfl, rfl, rfl, rfl⟩

/-- A row loop that accepts a single row has appended the record of that row. -/
theorem decodeRows_single {α : Type} (f : List String → Except Fault α) (r : List String)
    (h : (decodeRows f [r]).2 = none) : ∃ a, f r = .ok a ∧ decodeRows f [r] = ([a], none) := by
  simp only [decodeRows] at h ⊢
  cases hr : f r with
  | error e => rw [hr] at h; simp at h
  | ok a => exact ⟨a, rfl, rfl⟩

/-- C10 (counterexample): the row with channel id `007` and octet count
    `0123456` is accepted, and writing the decoded integers back gives `7` and
    `123456`, not the tokens. -/
theorem downstream_leading_zeros_lost :
    Status.parseDownstream refLib {} [["CH1", "007", "591.0 MHz", "2.1 dBmV", "38.5 dB",
      "QAM256", "0123456", "10", "0"]]
      = ({ Downstream := [{ recordCH1 with DCID := 7 }] }, none) ∧
    Itoa 7 = "7" ∧ FormatUint 123456 = "123456" ∧ "7" ≠ "007" ∧ "123456" ≠ "0123456" :=
  ⟨by rfl, by rfl, by rfl, by decide, by decide⟩

/-- C10 (amended): for every row that `parseDownstream` accepts, the row has 9
    tokens, `Name` and `Modulation` are tokens 0 and 5, and writing the decoded
    `Octets`, `Corrected` and `Uncorrectable` back as decimal integers gives
    tokens 6, 7 and 8 whenever these have no superfluous leading zeros; the same
    holds for `DCID` and token 1 when moreover the value is below `2 ^ 63`. -/
theorem downstream_integers_roundtrip (L : Lib) (s s' : Status) (r : List String)
    (h : s.parseDownstream L [r] = (s', none)) :
    ∃ t0 t1 t2 t3 t4 t5 t6 t7 t8 d,
      r = [t0, t1, t2, t3, t4, t5, t6, t7, t8] ∧ s'.Downstream = s.Downstream ++ [d] ∧
      d.Name = t0 ∧ d.Modulation = t5 ∧
      (NoLeadingZero t6 → FormatUint d.Octets = t6) ∧
      (NoLeadingZero t7 → FormatUint d.Corrected = t7) ∧
      (NoLeadingZero t8 → FormatUint d.Uncorrectable = t8) ∧
      (∀ v, ParseUint t1 = .ok v → v < 2 ^ 63 → NoLeadingZero t1 → Itoa d.DCID = t1) := by
  rw [parseDownstream_eq] at h
  have h2 : (decodeRows (downstreamRow L) [r]).2 = none := congrArg Prod.snd h
  obtain ⟨d, hd, hrows⟩ := decodeRows_single _ r h2
  rw [hrows] at h
  have hs : s' = { s with Downstream := s.Downstream ++ [d] } := (congrArg Prod.fst h).symm
  obtain ⟨t0, t1, t2, t3, t4, t5, t6, t7, t8, rfl⟩ := length_nine (downstreamRow_length L r d hd)
  obtain ⟨v1, v6, v7, v8, h1, h6, h7, h8, hn, hc, hm, ho, hcor, hu⟩ :=
    downstreamRow_inv L _ _ _ _ _ _ _ _ _ d hd
  refine ⟨t0, t1, t2, t3, t4, t5, t6, t7, t8, d, rfl, by rw [hs], hn, hm, ?_, ?_, ?_, ?_⟩
  · intro hz; rw [ho]; exact ParseUint_roundtrip t6 v6 h6 hz
  · intro hz; rw [hcor]; exact ParseUint_roundtrip t7 v7 h7 hz
  · intro hz; rw [hu]; exact ParseUint_roundtrip t8 v8 h8 hz
  · intro v hv hlt hz
    rw [h1] at hv
    cases hv
    rw [hc]
    exact Itoa_roundtrip t1 v1 h1 hz hlt

/-- C10 (witness): the row of the end-to-end example is accepted. -/
theorem downstream_integers_roundtrip_witness :
    Status.parseDownstream refLib {} [rowCH1] = ({ Downstream := [recordCH1] }, none) ∧
    ∃ t0 t1 t2 t3 t4 t5 t6 t7 t8 d,
      rowCH1 = [t0, t1, t2, t3, t4, t5, t6, t7, t8] ∧
      ({ Downstream := [recordCH1] } : Status).Downstream = ({} : Status).Downstream ++ [d] ∧
      d.Name = t0 ∧ d.Modulation = t5 ∧
      (NoLeadingZero t6 → FormatUint d.Octets = t6) ∧
      (NoLeadingZero t7 → FormatUint d.Corrected = t7) ∧
      (NoLeadingZero t8 → FormatUint d.Uncorrectable = t8) ∧
      (∀ v, ParseUint t1 = .ok v → v < 2 ^ 63 → NoLeadingZero t1 → Itoa d.DCID = t1) :=
  ⟨by rfl, downstream_integers_roundtrip refLib {} { Downstream := [recordCH1] } rowCH1 (by rfl)⟩

/-- C11: for a 7-token upstream row whose token 1 is an unsigned decimal
    integer, whose tokens 2 and 3 are a value and a unit that parse, and whose
    token 5 splits into the sentinel `----` and a unit, `parseUpstream` returns no
    error and the appended record has `SymbolRate` 0. The library facts used are
    that `ParseFloat` reads `0.0` as a float whose conversion to `int` is 0. -/
theorem upstream_sentinel_symbol_rate (L : Lib) (s : Status)
    (t0 t1 t2 t3 t4 t5 t6 n2 u2 n3 u3 u5 : String) (ucid : Nat) (f2 f3 z : Float64)
    (h1 : ParseUint t1 = .ok ucid)
    (h2 : Fields t2 = [n2, u2]) (hf2 : L.ParseFloat (if n2 = "----" then "0.0" else n2) = .ok f2)
    (h3 : Fields t3 = [n3, u3]) (hf3 : L.ParseFloat (if n3 = "----" then "0.0" else n3) = .ok f3)
    (h5 : Fields t5 = ["----", u5])
    (hz : L.ParseFloat "0.0" = .ok z) (hi : L.floatToInt z = 0) :
    ∃ u, s.parseUpstream L [[t0, t1, t2, t3, t4, t5, t6]]
        = ({ s with Upstream := s.Upstream ++ [u] }, none) ∧
      u.SymbolRate = 0 := by
  have hrow : upstreamRow L [t0, t1, t2, t3, t4, t5, t6] = .ok
      { Name := t0, UCID := toInt ucid, Frequency := f2, Power := f3, ChannelType := t4,
        SymbolRate := L.floatToInt z, Modulation := t6 } := by
    rw [upstreamRow_seven]
    simp only [upstreamFloat, h1, h2, hf2, h3, hf3, h5, hz, if_true, liftE, bind, Except.bind,
      pure, Except.pure]
  refine ⟨Upstream.mk t0 (toInt ucid) f2 f3 t4 (L.floatToInt z) t6, ?_, hi⟩
  simp only [parseUpstream_eq, decodeRows, hrow]

/-- C11 (witness): an upstream row with symbol rate `---- kSym/s`. -/
theorem upstream_sentinel_symbol_rate_witness :
    Fields "---- kSym/s" = ["----", "kSym/s"] ∧
    refLib.ParseFloat "0.0" = .ok ⟨0⟩ ∧ refLib.floatToInt ⟨0⟩ = 0 ∧
    ∃ u, Status.parseUpstream refLib {} [rowUS1]
        = ({ ({} : Status) with Upstream := ({} : Status).Upstream ++ [u] }, none) ∧
      u.SymbolRate = 0 :=
  ⟨rfl, rfl, rfl,
    upstream_sentinel_symbol_rate refLib {} "US1" "5" "30.6 MHz" "45.0 dBmV" "DOCSIS2.0 (ATDMA)"
      "---- kSym/s" "16QAM" "30.6" "MHz" "45.0" "dBmV" "kSym/s" 5 ⟨0x403E99999999999A⟩
      ⟨0x4046800000000000⟩ ⟨0⟩ rfl rfl rfl rfl rfl rfl rfl rfl⟩

/-- C12: for a 5-token interface row whose token 4 is a parseable hardware
    address, the decoded `Interface` has `Provisioned = true` exactly when token 1
    is the string `Enabled`, and `Up = true` exactly when token 2 is the string
    `Up`. -/
theorem interface_flags (L : Lib) (s : Status) (t0 t1 t2 t3 t4 : String) (mac : HardwareAddr)
    (hm : L.ParseMAC t4 = .ok mac) :
    ∃ i, s.parseInterfaces L [[t0, t1, t2, t3, t4]]
        = ({ s with Interfaces := s.Interfaces ++ [i] }, none) ∧
      (i.Provisioned = true ↔ t1 = "Enabled") ∧ (i.Up = true ↔ t2 = "Up") := by
  have hrow : interfaceRow L [t0, t1, t2, t3, t4] = .ok
      { Name := t0, Provisioned := t1 == "Enabled", Up := t2 == "Up",
        Speed := if t3 = "-----" then "n/a" else t3, MAC := mac } := by
    rw [interfaceRow_five]
    simp only [hm, liftE, bind, Except.bind, pure, Except.pure]
  refine ⟨Interface.mk t0 (t1 == "Enabled") (t2 == "Up") (if t3 = "-----" then "n/a" else t3) mac,
    ?_, ?_, ?_⟩
  · simp only [parseInterfaces_eq, decodeRows, hrow]
  · simp
  · simp

/-- C12 (witness): the tokens `enabled` and `UP` decode to false. -/
theorem interface_flags_witness :
    refLib.ParseMAC "00:1d:d0:aa:bb:cd" = .ok [0, 29, 208, 170, 187, 205] ∧
    "enabled" ≠ "Enabled" ∧ "UP" ≠ "Up" ∧
    ∃ i, Status.parseInterfaces refLib {} [["CABLE", "enabled", "UP", "-----", "00:1d:d0:aa:bb:cd"]]
        = ({ ({} : Status) with Interfaces := ({} : Status).Interfaces ++ [i] }, none) ∧
      (i.Provisioned = true ↔ "enabled" = "Enabled") ∧ (i.Up = true ↔ "UP" = "Up") :=
  ⟨rfl, by decide, by decide,
    interface_flags refLib {} "CABLE" "enabled" "UP" "-----" "00:1d:d0:aa:bb:cd"
      [0, 29, 208, 170, 187, 205] rfl⟩

/-- C13: for a 5-token interface row whose token 4 is a parseable hardware
    address, the decoded `Speed` is `n/a` when token 3 is `-----` (five dashes)
    and token 3 itself otherwise. -/
theorem interface_speed (L : Lib) (s : Status) (t0 t1 t2 t3 t4 : String) (mac : HardwareAddr)
    (hm : L.ParseMAC t4 = .ok mac) :
    ∃ i, s.parseInterfaces L [[t0, t1, t2, t3, t4]]
        = ({ s with Interfaces := s.Interfaces ++ [i] }, none) ∧
      (t3 = "-----" → i.Speed = "n/a") ∧ (t3 ≠ "-----" → i.Speed = t3) := by
  have hrow : interfaceRow L [t0, t1, t2, t3, t4] = .ok
      { Name := t0, Provisioned := t1 == "Enabled", Up := t2 == "Up",
        Speed := if t3 = "-----" then "n/a" else t3, MAC := mac } := by
    rw [interfaceRow_five]
    simp only [hm, liftE, bind, Except.bind, pure, Except.pure]
  refine ⟨Interface.mk t0 (t1 == "Enabled") (t2 == "Up") (if t3 = "-----" then "n/a" else t3) mac,
    ?_, ?_, ?_⟩
  · simp only [parseInterfaces_eq, decodeRows, hrow]
  · intro h; simp only [h, if_true]
  · intro h; simp only [h, if_false]

/-- C13 (witness): four dashes are kept as they are. -/
theorem interface_speed_witness :
    refLib.ParseMAC "00:1d:d0:aa:bb:cc" = .ok [0, 29, 208, 170, 187, 204] ∧
    "----" ≠ "-----" ∧
    ∃ i, Status.parseInterfaces refLib {} [["LAN", "Enabled", "Up", "----", "00:1d:d0:aa:bb:cc"]]
        = ({ ({} : Status) with Interfaces := ({} : Status).Interfaces ++ [i] }, none) ∧
      ("----" = "-----" → i.Speed = "n/a") ∧ ("----" ≠ "-----" → i.Speed = "----") :=
  ⟨rfl, by decide,
    interface_speed refLib {} "LAN" "Enabled" "Up" "----" "00:1d:d0:aa:bb:cc"
      [0, 29, 208, 170, 187, 204] rfl⟩

/-- C14 (counterexample): in the row `<tr><td>b</td></tr>` the text node `b`
    has non-empty trimmed content, yet the row has no token. -/
theorem parseTableRow_drops_text_b :
    rowOfB.descendants = [textNode "b", element "td" [textNode "b"]] ∧
    (textNode "b").Type = NodeType.TextNode ∧ TrimSpace (textNode "b").Data = "b" ∧
    parseTableRow rowOfB = [] :=
  ⟨by rfl, by rfl, by rfl, by rfl⟩

/-- C14 (amended): `parseTableRow` emits one token, the node's trimmed `Data`,
    for every descendant node of any kind whose trimmed `Data` is not empty and
    is none of the strings `b`, `font`, `td`, each node after its own
    descendants; no token is empty or has leading or trailing white space. -/
theorem parseTableRow_tokens (tr : Node) :
    parseTableRow tr = tr.descendants.filterMap tokenOf ∧
    ∀ t ∈ parseTableRow tr, t ≠ "" ∧ Trimmed t := by
  have h : parseTableRow tr = tr.descendants.filterMap tokenOf := by
    unfold parseTableRow
    rw [parseTableRow_walk_eq]
    simp
  refine ⟨h, fun t ht => ?_⟩
  rw [h, List.mem_filterMap] at ht
  obtain ⟨n, _, hn⟩ := ht
  exact tokenOf_trimmed n t hn

/-- C14 (witness): a cell with padded text inside a link, and a comment. -/
theorem parseTableRow_tokens_witness :
    parseTableRow (element "tr" [element "td" [element "a" [textNode " x "]],
      .mk .CommentNode " hi " []]) = ["x", "a", "hi"] ∧
    ("x" ≠ "" ∧ Trimmed "x") :=
  have h : parseTableRow (element "tr" [element "td" [element "a" [textNode " x "]],
      .mk .CommentNode " hi " []]) = ["x", "a", "hi"] := by rfl
  ⟨h, (parseTableRow_tokens (element "tr" [element "td" [element "a" [textNode " x "]],
      .mk .CommentNode " hi " []])).2 "x" (by rw [h]; simp)⟩

/-- C15: every row of the group `walkTBody` returns has at least one token, so
    reading its first token is in range. -/
theorem walkTBody_rows_have_token (tbody : Node) :
    ∀ r ∈ walkTBody tbody, r ≠ [] ∧ ∃ first, index r 0 = .ok first := by
  intro r hr
  have hne : r ≠ [] :=
    walkTBody_walk_nonempty tbody [] (fun r h => absurd h (List.not_mem_nil r)) r hr
  refine ⟨hne, ?_⟩
  cases r with
  | nil => exact absurd rfl hne
  | cons a l => exact ⟨a, by simp [index]⟩

/-- C15 (witness): a group with an empty row between two rows; the empty row is
    dropped. -/
theorem walkTBody_rows_have_token_witness :
    walkTBody (element "tbody" [tableRow ["DCID"], tableRow [" "], tableRow ["CH2", "2"]])
      = [["DCID"], ["CH2", "2"]] ∧
    (["CH2", "2"] ≠ [] ∧ ∃ first, index ["CH2", "2"] 0 = .ok first) :=
  have h : walkTBody (element "tbody" [tableRow ["DCID"], tableRow [" "],
      tableRow ["CH2", "2"]]) = [["DCID"], ["CH2", "2"]] := by rfl
  ⟨h, walkTBody_rows_have_token (element "tbody" [tableRow ["DCID"], tableRow [" "],
      tableRow ["CH2", "2"]]) ["CH2", "2"] (by rw [h]; simp)⟩

/-- C16 (counterexample): in `nestedDocument`, a table nested in a cell of
    another table, no group fails; decoding the groups in document order leaves
    the uptime of the inner group, 2 days, and `Parse` returns the uptime of the
    outer group, 1 day: the outer group is decoded after the group nested in
    it. -/
theorem Parse_nested_group_decoded_first :
    decodeGroups refLib {} (groupsOf nestedDocument.descendantsDocumentOrder)
      = ({ Uptime := 2 * 24 * Hour }, none) ∧
    Parse refLib nestedDocument = .ok { Uptime := 1 * 24 * Hour } :=
  ⟨by rfl, by rfl⟩

/-- C16 (amended): for every markup tree in which no row group fails to decode,
    `Parse` decodes exactly one row group per descendant node whose `Data` is
    `tbody`, in the order of the walk: a node after its descendants, siblings
    left to right. -/
theorem Parse_decodes_groups_in_walk_order (L : Lib) (node : Node)
    (h : (decodeGroups L {} (groupsOf node.descendants)).2 = none) :
    Parse L node = .ok (decodeGroups L {} (groupsOf node.descendants)).1 := by
  unfold Parse
  rw [Parse_walk_eq L node {} h]
  rcases hd : decodeGroups L {} (groupsOf node.descendants) with ⟨s1, o⟩
  rw [hd] at h
  simp only at h
  subst h
  rfl

/-- C16 (witness): the nested document, whose groups decode without failure. -/
theorem Parse_decodes_groups_in_walk_order_witness :
    (decodeGroups refLib {} (groupsOf nestedDocument.descendants)).2 = none ∧
    Parse refLib nestedDocument
      = .ok (decodeGroups refLib {} (groupsOf nestedDocument.descendants)).1 :=
  ⟨by rfl, Parse_decodes_groups_in_walk_order refLib nestedDocument (by rfl)⟩

/-- C17 (code bug): for a target without a port the handler dials port 80, not
    the documented default 65001. -/
theorem ServeHTTP_dials_port_80 :
    dialedAddress "192.168.100.1" = some "http://192.168.100.1:80" ∧
    dialedAddress "modem.lan" = some "http://modem.lan:80" ∧
    dialedAddress "192.168.100.1" ≠ some "http://192.168.100.1:65001" :=
  ⟨by rfl, by rfl, by decide⟩

theorem collectDownstream_desc (ds : List Downstream) :
    (newCollector.collectDownstream ds).filter
      (fun m => decide (m.desc = newCollector.UptimeSecondsTotal)) = [] := by
  induction ds with
  | nil => rfl
  | cons d rest ih =>
    simp only [collector.collectDownstream]
    rw [List.filter_append, ih, List.append_nil]
    rfl

theorem collectUpstream_desc (us : List Upstream) :
    (newCollector.collectUpstream us).filter
      (fun m => decide (m.desc = newCollector.UptimeSecondsTotal)) = [] := by
  induction us with
  | nil => rfl
  | cons u rest ih =>
    simp only [collector.collectUpstream]
    rw [List.filter_append, ih, List.append_nil]
    rfl

theorem collectInterfaces_desc (is : List Interface) :
    (newCollector.collectInterfaces is).filter
      (fun m => decide (m.desc = newCollector.UptimeSecondsTotal)) = [] := by
  induction is with
  | nil => rfl
  | cons i rest ih =>
    simp only [collector.collectInterfaces]
    rw [List.filter_append, ih, List.append_nil]
    rfl

/-- C18 (counterexample): the uptime metric is of counter type, not of gauge
    type. -/
theorem Collect_uptime_is_counter :
    (newCollector.Collect (.ok { Uptime := 60 * 1000000000 })).head?
      = some (Metric.const newCollector.UptimeSecondsTotal .CounterValue
          (.seconds (60 * 1000000000)) []) ∧
    ValueType.CounterValue ≠ ValueType.GaugeValue :=
  ⟨by rfl, by decide⟩

/-- C18 (amended): for every fetched `Status`, `Collect` emits the device
    uptime as exactly one metric on the uptime descriptor; it is of counter type,
    carries no label, and its value is the `Uptime` in seconds. -/
theorem Collect_uptime_metric (st : Status) :
    (newCollector.Collect (.ok st)).filter
      (fun m => decide (m.desc = newCollector.UptimeSecondsTotal))
      = [Metric.const newCollector.UptimeSecondsTotal .CounterValue (.seconds st.Uptime) []] := by
  unfold collector.Collect
  simp only
  rw [List.filter_cons_of_pos (by rfl), List.filter_append, List.filter_append,
    collectDownstream_desc, collectUpstream_desc, collectInterfaces_desc]
  rfl

/-- The error arm of `Collect`: when `c.c.Status()` returns an error, `Collect`
    sends one invalid metric that carries it on the uptime descriptor, and
    nothing else. -/
theorem Collect_failure (c : collector) (err : Error) :
    c.Collect (.error err) = [Metric.invalid c.UptimeSecondsTotal err] :=
  rfl

/-- C19 (code bug): a decode failure does not always surface as one invalid
    metric. In `exampleDocument` the group `failingGroup` fails to decode, yet
    `Collect` sends eight valid metrics and no invalid one, because `Parse` drops
    the failure of a nested group (the defect of C1); on `shortUptimeDocument` the
    uptime decoder panics (the defect of C4) and `Collect` sends nothing. Only a
    failure that `c.c.Status()` returns, such as a failed fetch, gives the one
    invalid metric on the uptime descriptor. -/
theorem CollectPage_decode_failure_not_reported :
    isError (Status.parse refLib {} (walkTBody failingGroup)).2 = true ∧
    newCollector.CollectPage refLib (.ok exampleDocument) =
      ([Metric.const newCollector.UptimeSecondsTotal .CounterValue (.seconds (3075 * Minute)) [],
        Metric.const newCollector.DownstreamPowerDBMV .GaugeValue
          (.float ⟨0x4000CCCCCCCCCCCD⟩) ["CH1"],
        Metric.const newCollector.DownstreamBytesTotal .CounterValue (.ofUint64 123456) ["CH1"],
        Metric.const newCollector.DownstreamCorrectedSymbolsTotal .CounterValue
          (.ofUint64 10) ["CH1"],
        Metric.const newCollector.DownstreamUncorrectableSymbolsTotal .CounterValue
          (.ofUint64 0) ["CH1"],
        Metric.const newCollector.InterfacesInfo .GaugeValue .one
          ["LAN", "1000(Full)", "00:1d:d0:aa:bb:cc"],
        Metric.const newCollector.InterfacesProvisioned .GaugeValue .one ["LAN"],
        Metric.const newCollector.InterfacesUp .GaugeValue .one ["LAN"]], none) ∧
    isPanic (Status.parse refLib {} (walkTBody
      (element "tbody" [tableRow ["System Uptime:", "5 d"]]))).2 = true ∧
    newCollector.CollectPage refLib (.ok shortUptimeDocument) =
      ([], some (.runtimePanic "index out of range")) ∧
    newCollector.CollectPage refLib (.error (.text "fetch failed")) =
      ([Metric.invalid newCollector.UptimeSecondsTotal (.text "fetch failed")], none) :=
  ⟨by rfl, by rfl, by rfl, by rfl, by rfl⟩

theorem parseUptime_frame (s : Status) (r : List String) :
    (s.parseUptime r).1.Downstream = s.Downstream ∧ (s.parseUptime r).1.Upstream = s.Upstream ∧
    (s.parseUptime r).1.Interfaces = s.Interfaces := by
  unfold Status.parseUptime
  cases uptimeOf r <;> exact ⟨rfl, rfl, rfl⟩

theorem parseSystem_frame (rows : List (List String)) : ∀ s : Status,
    (s.parseSystem rows).1.Downstream = s.Downstream ∧
    (s.parseSystem rows).1.Upstream = s.Upstream ∧
    (s.parseSystem rows).1.Interfaces = s.Interfaces := by
  induction rows with
  | nil => intro s; exact ⟨rfl, rfl, rfl⟩
  | cons r rows ih =>
    intro s
    simp only [Status.parseSystem]
    cases index r 0 with
    | error f => exact ⟨rfl, rfl, rfl⟩
    | ok first =>
      simp only
      by_cases hf : first = "System Uptime:"
      · simp only [hf, if_true]
        have hu := parseUptime_frame s r
        rcases hp : s.parseUptime r with ⟨s1, _ | f⟩
        · rw [hp] at hu
          simp only at hu ⊢
          obtain ⟨h1, h2, h3⟩ := ih s1
          exact ⟨h1.trans hu.1, h2.trans hu.2.1, h3.trans hu.2.2⟩
        · rw [hp] at hu
          exact hu
      · simp only [hf, if_false]
        exact ih s

/-- C20: a call of `Status.parse` only appends to the field that matches the
    header of the group, whether it succeeds or fails: with header `DCID` the
    previous `Downstream` list is a prefix of the new one and `Upstream`, `Uptime`
    and `Interfaces` are unchanged, symmetrically for `UCID` and
    `Interface Name`, and with `System Uptime:` the three lists are unchanged. -/
theorem parse_frame (L : Lib) (s : Status) (toks : List String) (rest : List (List String)) :
    (s.Downstream <+: (s.parse L (("DCID" :: toks) :: rest)).1.Downstream ∧
      (s.parse L (("DCID" :: toks) :: rest)).1.Upstream = s.Upstream ∧
      (s.parse L (("DCID" :: toks) :: rest)).1.Uptime = s.Uptime ∧
      (s.parse L (("DCID" :: toks) :: rest)).1.Interfaces = s.Interfaces) ∧
    (s.Upstream <+: (s.parse L (("UCID" :: toks) :: rest)).1.Upstream ∧
      (s.parse L (("UCID" :: toks) :: rest)).1.Downstream = s.Downstream ∧
      (s.parse L (("UCID" :: toks) :: rest)).1.Uptime = s.Uptime ∧
      (s.parse L (("UCID" :: toks) :: rest)).1.Interfaces = s.Interfaces) ∧
    (s.Interfaces <+: (s.parse L (("Interface Name" :: toks) :: rest)).1.Interfaces ∧
      (s.parse L (("Interface Name" :: toks) :: rest)).1.Downstream = s.Downstream ∧
      (s.parse L (("Interface Name" :: toks) :: rest)).1.Upstream = s.Upstream ∧
      (s.parse L (("Interface Name" :: toks) :: rest)).1.Uptime = s.Uptime) ∧
    ((s.parse L (("System Uptime:" :: toks) :: rest)).1.Downstream = s.Downstream ∧
      (s.parse L (("System Uptime:" :: toks) :: rest)).1.Upstream = s.Upstream ∧
      (s.parse L (("System Uptime:" :: toks) :: rest)).1.Interfaces = s.Interfaces) := by
  refine ⟨?_, ?_, ?_, ?_⟩
  · have h : s.parse L (("DCID" :: toks) :: rest) = s.parseDownstream L rest := rfl
    rw [h, parseDownstream_eq]
    exact ⟨List.prefix_append _ _, rfl, rfl, rfl⟩
  · have h : s.parse L (("UCID" :: toks) :: rest) = s.parseUpstream L rest := rfl
    rw [h, parseUpstream_eq]
    exact ⟨List.prefix_append _ _, rfl, rfl, rfl⟩
  · have h : s.parse L (("Interface Name" :: toks) :: rest) = s.parseInterfaces L rest := rfl
    rw [h, parseInterfaces_eq]
    exact ⟨List.prefix_append _ _, rfl, rfl, rfl⟩
  · have h : s.parse L (("System Uptime:" :: toks) :: rest)
        = s.parseSystem (("System Uptime:" :: toks) :: rest) := rfl
    rw [h]
    exact parseSystem_frame _ s

end Arris
